import Mathlib

/-!
Verification of `transit_gtfs.py` (nmc-map-matcher).

This file shallowly embeds the core of `dumpBusRouteLinks` and the
frequency-table output of `main`:

* the segment-selection scan (source lines 175-204),
* the ephemeral subgraph builder (lines 223-273),
* the per-link result-tree scan and row/assignment walk (lines 331-375),
* the leftover unmatched-stop loop (lines 377-396),
* the per-trip driver composing these (lines 165-396),
* the bus-frequency offset computation (lines 511-522).

Python floats are modelled as rationals (exact for the operations the
code performs on them), machine integers as `Int`, dictionaries as
association lists updated in place, and sets as duplicate-free lists.
Python `None` stored in a link field is modelled by a distinguished
`nullLink` value.  Fields of upstream objects that no modelled code
reads (`prevTreeNode` predecessor references, stop names, GPS centers
of a `GraphLib`) are omitted.
-/

/-- Geographic node of the road network (`graph.GraphNode`). -/
structure GraphNode where
  id : ℤ
  gpsLat : ℚ
  gpsLng : ℚ
deriving DecidableEq

/-- Directed link of the road network (`graph.GraphLink`). -/
structure GraphLink where
  id : ℤ
  origNode : GraphNode
  destNode : GraphNode
deriving DecidableEq

/-- Stands for the Python `None` placed in the `link` field of the
synthetic diagnostic `PointOnLink` (source line 391); no modelled code
reads it. -/
def nullLink : GraphLink :=
  { id := 0, origNode := ⟨0, 0, 0⟩, destNode := ⟨0, 0, 0⟩ }

/-- A matched point on a link (`graph.PointOnLink`).  `pointX`/`pointY`
are set by the source only on the synthetic diagnostic record (lines
392-393); where the Python constructor derives them internally we store
zero, as no modelled code reads them. -/
structure PointOnLink where
  link : GraphLink
  dist : ℚ
  nonPerpPenalty : ℚ
  refDist : ℚ
  pointX : ℚ
  pointY : ℚ
deriving DecidableEq

/-- A GTFS shape entry (`gtfs.ShapesEntry`).  The trailing flag mirrors
the extra boolean constructor argument used at source lines 315 and 389. -/
structure ShapesEntry where
  shapeID : ℤ
  shapeSeq : ℤ
  lat : ℚ
  lng : ℚ
  typeFlag : Bool
deriving DecidableEq

/-- A node of the map-matching result tree (`path_engine.PathEnd`).
The `prevTreeNode` predecessor reference of the source is omitted: no
claim inspects it. -/
structure PathEnd where
  shapeEntry : ShapesEntry
  pointOnLink : PointOnLink
  routeInfo : List GraphLink
  restart : Bool
  totalCost : ℚ
  totalDist : ℚ
deriving DecidableEq

/-- A GTFS stop (`gtfs.StopsEntry`); the stop name is omitted (unused by
the modelled code paths). -/
structure StopEntry where
  stopID : ℤ
  gpsLat : ℚ
  gpsLng : ℚ
  pointX : ℚ
  pointY : ℚ
deriving DecidableEq

/-- A GTFS stop-time entry (`gtfs.StopTimesEntry`); `time` is seconds. -/
structure StopTime where
  stopSeq : ℤ
  stop : StopEntry
  time : ℤ
deriving DecidableEq

/-- Lookup in an association list modelling a Python `dict` (first
binding for the key). -/
def alookup {α : Type} (l : List (ℤ × α)) (k : ℤ) : Option α :=
  (l.find? (fun p => p.1 = k)).map (fun p => p.2)

/-- Keyed store into an association list modelling Python `d[k] = v`:
replaces the first binding of `k` in place, else appends. -/
def aset {α : Type} (l : List (ℤ × α)) (k : ℤ) (v : α) : List (ℤ × α) :=
  match l with
  | [] => [(k, v)]
  | (k', v') :: t => if k' = k then (k, v) :: t else (k', v') :: aset t k v

/-- Road network graph (`graph.GraphLib`): node and link registries
keyed by identifier.  The GPS center fields are omitted (unused). -/
structure GraphLib where
  nodeMap : List (ℤ × GraphNode)
  linkMap : List (ℤ × GraphLink)
deriving DecidableEq

/-- Modelled from the spec: `graph.GraphLib.addNode` (not under `src/`)
registers the node in `nodeMap` under its identifier; every caller in
`dumpBusRouteLinks` guards insertion by a membership test, so appending
the binding is key-faithful. -/
def GraphLib.addNode (g : GraphLib) (n : GraphNode) : GraphLib :=
  { g with nodeMap := g.nodeMap ++ [(n.id, n)] }

/-- Modelled from the spec: `graph.GraphLib.addLink` (not under `src/`)
registers the link in `linkMap` under its identifier; every caller in
`dumpBusRouteLinks` guards insertion by a membership test, so appending
the binding is key-faithful. -/
def GraphLib.addLink (g : GraphLib) (lk : GraphLink) : GraphLib :=
  { g with linkMap := g.linkMap ++ [(lk.id, lk)] }

/-! ## Segment selection (source lines 175-204)

The scan walks `curIndex` from `0` through `len(treeNodes)` inclusive,
tracking the contiguous run of maximal cumulative-distance span.
`longestDist` starts at `sys.float_info.min`, the smallest positive
normalized double, `2 ^ (-1022)`. -/

/-- The value of `sys.float_info.min`: `2 ^ (-1022)`, the smallest
positive normalized double, exact as the rational `1 / 2 ^ 1022`; the
denominator is written as the decimal numeral of `2 ^ 1022` so that the
kernel can evaluate comparisons against it. -/
def minFloat : ℚ :=
  mkRat 1 44942328371557897693232629769725618340449424473557664318357520289433168951375240783177119330601884005280028469967848339414697442203604155623211857659868531094441973356216371319075554900311523529863270738021251442209537670585615720368478277635206809290837627671146574559986811484619929076208839082406056034304

/-- Total-distance of the node at index `i`, or `0` out of range (the
source only reads indices that are in range). -/
def dAt (t : List PathEnd) (i : ℕ) : ℚ :=
  ((t.get? i).map (fun n => n.totalDist)).getD 0

/-- Whether `treeNodes[i].restart` holds; `False` out of range (the
source short-circuits before reading out of range). -/
def restartAt (t : List PathEnd) (i : ℕ) : Bool :=
  ((t.get? i).map (fun n => n.restart)).getD false

/-- Number of links recorded at a non-boundary index:
`len(treeNodes[curIndex].routeInfo)`. -/
def routeLenAt (t : List PathEnd) (i : ℕ) : ℕ :=
  ((t.get? i).map (fun n => n.routeInfo.length)).getD 0

/-- State of the segment-selection scan, mirroring the local variables
of source lines 176-184. -/
structure SelState where
  startIndex : ℤ
  linkCount : ℕ
  totalLinks : ℕ
  longestStart : ℤ
  longestEnd : ℕ
  longestDist : ℚ
  longestLinkCount : ℕ
deriving DecidableEq

/-- Initial selection state (source lines 176-184); `longestEnd` starts
at `len(treeNodes)`. -/
def selInit (t : List PathEnd) : SelState :=
  { startIndex := -1, linkCount := 0, totalLinks := 0,
    longestStart := -1, longestEnd := t.length, longestDist := minFloat,
    longestLinkCount := 0 }

/-- One iteration of the segment-selection loop body at `curIndex`
(source lines 187-204). -/
def selStep (t : List PathEnd) (s : SelState) (curIndex : ℕ) : SelState :=
  if curIndex = t.length ∨ curIndex = 0 ∨ restartAt t curIndex then
    let s := { s with totalLinks := s.totalLinks + 1, linkCount := s.linkCount + 1 }
    let s :=
      if (curIndex : ℤ) > s.startIndex ∧ s.startIndex ≥ 0 then
        if dAt t (curIndex - 1) - dAt t s.startIndex.toNat > s.longestDist then
          { s with longestStart := s.startIndex, longestEnd := curIndex,
                   longestDist := dAt t (curIndex - 1) - dAt t s.startIndex.toNat,
                   longestLinkCount := s.linkCount, linkCount := 0 }
        else s
      else s
    { s with startIndex := (curIndex : ℤ) }
  else
    { s with totalLinks := s.totalLinks + routeLenAt t curIndex,
             linkCount := s.linkCount + routeLenAt t curIndex }

/-- The segment-selection scan: `while curIndex <= len(treeNodes)`
with `curIndex` stepping by one is a fold over `0, ..., len`. -/
def selectLoop (t : List PathEnd) : SelState :=
  (List.range (t.length + 1)).foldl (selStep t) (selInit t)

/-! Specification-side view of the scan, used to state what it selects:
the boundary indices are `0`, every interior restart index, and
`len(treeNodes)`; runs are consecutive boundary pairs. -/

/-- Whether the loop treats `i` as a run boundary (source line 187). -/
def isBdry (t : List PathEnd) (i : ℕ) : Bool :=
  decide (i = t.length) || decide (i = 0) || restartAt t i

/-- The ordered list of boundary indices of the scan. -/
def bdryList (t : List PathEnd) : List ℕ :=
  (List.range (t.length + 1)).filter (isBdry t)

/-- The contiguous runs the scan evaluates: consecutive boundary pairs. -/
def runsOf (t : List PathEnd) : List (ℕ × ℕ) :=
  (bdryList t).zip (bdryList t).tail

/-- Cumulative-distance span of a run `[s, e)`:
`treeNodes[e-1].totalDist - treeNodes[s].totalDist`. -/
def spanOf (t : List PathEnd) (r : ℕ × ℕ) : ℚ :=
  dAt t (r.2 - 1) - dAt t r.1

/-! ## The per-link result-tree scan (source lines 336-354)

The walk keeps a persistent cursor `resultIndex` into the stripped
result tree.  For each output link it runs an inner `while` loop over
`curResultIndex`.  Note two faithful quirks of the source: the loop
keeps scanning past non-matching entries as long as `matchCtr == 0`,
and the best-entry update reads `resultTree[resultIndex]` (the stale
cursor) rather than `resultTree[curResultIndex]`. -/

/-- Result of one inner scan: the final cursor, number of matches, the
retained tree entry, and the updated found-stop set. -/
structure ScanSt where
  resultIndex : ℕ
  matchCtr : ℕ
  best : Option PathEnd
  found : List ℤ
deriving DecidableEq

/-- Whether `resultTree[i]` exists and its matched link is `linkID`. -/
def matchAt (rt : List PathEnd) (i : ℕ) (linkID : ℤ) : Bool :=
  ((rt.get? i).map (fun e => decide (e.pointOnLink.link.id = linkID))).getD false

/-- The best-entry update of source lines 346-347.  Both the comparison
and the assignment read the entry at the stale persistent cursor
`resultIndex` (passed here as `stale`), not the entry that matched; a
smaller reference distance wins, ties keep the incumbent.  The
out-of-range case leaves the incumbent (the source would raise there,
but it always reads in range). -/
def bestUpdate (best : Option PathEnd) (stale : Option PathEnd) : Option PathEnd :=
  match best, stale with
  | none, some s => some s
  | some b, some s =>
    if s.pointOnLink.refDist < b.pointOnLink.refDist then some s else some b
  | _, none => best

/-- Fuel-indexed embedding of the `while curResultIndex < len(resultTree)`
loop of source lines 343-354.  Arguments after the fuel are
`resultIndex`, `curResultIndex`, `matchCtr`, `bestTreeEntry`,
`foundStopSet`.  The fuel only bounds iteration count; `scanGo` supplies
enough for the loop to run to its natural exit. -/
def scanFuel (rt : List PathEnd) (linkID : ℤ) :
    ℕ → ℕ → ℕ → ℕ → Option PathEnd → List ℤ → ScanSt
  | 0, resultIndex, _cur, matchCtr, best, found =>
    { resultIndex := resultIndex, matchCtr := matchCtr, best := best, found := found }
  | fuel + 1, resultIndex, cur, matchCtr, best, found =>
    if hc : cur < rt.length then
      let e := rt.get ⟨cur, hc⟩
      if e.pointOnLink.link.id = linkID then
        -- source line 345: check off this stop sequence
        let found' := found.insert e.shapeEntry.shapeSeq
        -- source lines 346-347: the comparison and the assignment both
        -- read resultTree[resultIndex], not resultTree[curResultIndex]
        let best' := bestUpdate best (rt.get? resultIndex)
        let resultIndex' := cur + 1
        let matchCtr' := matchCtr + 1
        let cur' := cur + 1
        if matchCtr' = 0 ∨ (cur' < rt.length ∧ matchAt rt resultIndex' linkID) then
          scanFuel rt linkID fuel resultIndex' cur' matchCtr' best' found'
        else
          { resultIndex := resultIndex', matchCtr := matchCtr', best := best', found := found' }
      else
        let cur' := cur + 1
        if matchCtr = 0 ∨ (cur' < rt.length ∧ matchAt rt resultIndex linkID) then
          scanFuel rt linkID fuel resultIndex cur' matchCtr best found
        else
          { resultIndex := resultIndex, matchCtr := matchCtr, best := best, found := found }
    else
      { resultIndex := resultIndex, matchCtr := matchCtr, best := best, found := found }

/-- The inner scan for one link, started at the persistent cursor with
`matchCtr = 0` and no best entry (source lines 337-342). -/
def scanGo (rt : List PathEnd) (linkID : ℤ) (resultIndex : ℕ) (found : List ℤ) : ScanSt :=
  scanFuel rt linkID (rt.length + 1) resultIndex resultIndex 0 none found

/-! ## Rows, warnings, and the per-link walk (source lines 331-375) -/

/-- Warnings printed to stderr by `dumpBusRouteLinks`, modelled with the
data values they interpolate. -/
inductive Warn where
  | trimmed (shapeID fromSeq toSeq : ℤ) (longestLinkCount totalLinks : ℕ)
  | linkNotFound (linkID : ℤ)
  | dup (matchCtr : ℕ) (tripID linkID stopID stopSeq : ℤ)
  | conflict (stopID newLinkID oldLinkID : ℤ)
  | unmatched (tripID stopID stopSeq : ℤ)
  | noLinks (tripID : ℤ)
deriving DecidableEq

/-- One CSV row of `public.bus_route_link.csv` (source lines 362-363 and
374); a blank stop and dwell-time field is `none`. -/
structure Row where
  tripID : ℤ
  seq : ℤ
  linkID : ℤ
  stop : Option ℤ
  dwell : Option ℤ
deriving DecidableEq

/-- The stop identifier `gtfsStopsLookup[seq].stop.stopID`.  The model
is total; at a key the dictionary lacks (where the source would raise
`KeyError`) it returns `0`. -/
def stopIDAt (gl : List (ℤ × StopTime)) (seq : ℤ) : ℤ :=
  ((alookup gl seq).map (fun gst => gst.stop.stopID)).getD 0

/-- Merging one representative stop into the global assignment map
(source lines 364-371): a stop already assigned to a different link is
left unchanged and a conflict is logged; otherwise the entry is
(re)written. -/
def assignStop (ret : List (ℤ × PointOnLink)) (stopID : ℤ) (pol : PointOnLink) :
    List (ℤ × PointOnLink) × List Warn :=
  match alookup ret stopID with
  | some p =>
    if p.link.id ≠ pol.link.id then (ret, [Warn.conflict stopID pol.link.id p.link.id])
    else (aset ret stopID pol, [])
  | none => (aset ret stopID pol, [])

/-- State of the per-link walk (source lines 332-335) plus the emitted
rows and warnings. -/
structure WalkState where
  resultIndex : ℕ
  found : List ℤ
  outSeqCtr : ℤ
  ret : List (ℤ × PointOnLink)
  rows : List Row
  warns : List Warn
deriving DecidableEq

/-- Processing of one entry of `outLinkIDList` (source lines 336-375). -/
def walkLink (rt : List PathEnd) (gl : List (ℤ × StopTime)) (tripID : ℤ)
    (st : WalkState) (linkID : ℤ) : WalkState :=
  let sc := scanGo rt linkID st.resultIndex st.found
  let dupWarns : List Warn :=
    if 1 < sc.matchCtr then
      match sc.best with
      | some b =>
        [Warn.dup sc.matchCtr tripID linkID (stopIDAt gl b.shapeEntry.shapeSeq)
          b.shapeEntry.shapeSeq]
      | none => []
    else []
  if 0 < sc.matchCtr then
    match sc.best with
    | some b =>
      let sid := stopIDAt gl b.shapeEntry.shapeSeq
      let ac := assignStop st.ret sid b.pointOnLink
      { resultIndex := sc.resultIndex, found := sc.found,
        outSeqCtr := st.outSeqCtr + 1, ret := ac.1,
        rows := st.rows ++ [{ tripID := tripID, seq := st.outSeqCtr, linkID := linkID,
                              stop := some sid, dwell := some 0 }],
        warns := st.warns ++ dupWarns ++ ac.2 }
    | none =>
      -- unreachable: the scan yields a best entry whenever matchCtr > 0
      { resultIndex := sc.resultIndex, found := sc.found,
        outSeqCtr := st.outSeqCtr + 1, ret := st.ret,
        rows := st.rows ++ [{ tripID := tripID, seq := st.outSeqCtr, linkID := linkID,
                              stop := none, dwell := none }],
        warns := st.warns ++ dupWarns }
  else
    { resultIndex := sc.resultIndex, found := sc.found,
      outSeqCtr := st.outSeqCtr + 1, ret := st.ret,
      rows := st.rows ++ [{ tripID := tripID, seq := st.outSeqCtr, linkID := linkID,
                            stop := none, dwell := none }],
      warns := st.warns ++ dupWarns }

/-- The whole per-link walk over `outLinkIDList` (source line 336). -/
def walkLinks (rt : List PathEnd) (gl : List (ℤ × StopTime)) (tripID : ℤ)
    (st0 : WalkState) (links : List ℤ) : WalkState :=
  links.foldl (walkLink rt gl tripID) st0

/-! ## Ephemeral subgraph construction (source lines 223-273) -/

/-- Last element of `outLinkIDList` (`outLinkIDList[-1]`); the list is
nonempty throughout the builder, so the default is never produced. -/
def lastID (l : List ℤ) : ℤ := l.getLast?.getD 0

/-- The guarded link insertion of source lines 263-264 and 272-273:
`if outLinkIDList[-1] not in vistaSubset.linkMap: vistaSubset.addLink(...)`;
an insertion whose link identifier is already present is skipped. -/
def addLinkIfAbsent (g : GraphLib) (lk : GraphLink) : GraphLib :=
  if (alookup g.linkMap lk.id).isSome then g else g.addLink lk

/-- State of the subgraph builder: the ephemeral graph, the Python
locals `vistaNodePrior` and `vistaNode` (the latter `none` while still
unassigned), the traversal-ordered link identifiers, and warnings. -/
structure BuildState where
  subset : GraphLib
  vistaNodePrior : GraphNode
  lastVistaNode : Option GraphNode
  outLinkIDList : List ℤ
  warns : List Warn
deriving DecidableEq

/-- Processing of one traversed link (source lines 245-266): skip links
absent from the base network; reuse or create the origin node; insert
the pending link only if its identifier is not yet present. -/
def buildProcessLink (vn : GraphLib) (st : BuildState) (link : GraphLink) : BuildState :=
  match alookup vn.linkMap link.id with
  | none => { st with warns := st.warns ++ [Warn.linkNotFound link.id] }
  | some origVistaLink =>
    let vistaNode : GraphNode :=
      match alookup st.subset.nodeMap origVistaLink.origNode.id with
      | none =>
        { id := origVistaLink.origNode.id, gpsLat := origVistaLink.origNode.gpsLat,
          gpsLng := origVistaLink.origNode.gpsLng }
      | some n => n
    let subset1 :=
      match alookup st.subset.nodeMap origVistaLink.origNode.id with
      | none => st.subset.addNode vistaNode
      | some _ => st.subset
    let subset2 :=
      addLinkIfAbsent subset1
        { id := lastID st.outLinkIDList, origNode := st.vistaNodePrior, destNode := vistaNode }
    { subset := subset2, vistaNodePrior := vistaNode, lastVistaNode := some vistaNode,
      outLinkIDList := st.outLinkIDList ++ [link.id], warns := st.warns }

/-- Processing of one matched position (source lines 238-266): skip a
position with no new traversed links, or one that merely repeats the
seeded first link. -/
def buildProcessNode (vn : GraphLib) (firstLinkID : ℤ) (st : BuildState) (n : PathEnd) :
    BuildState :=
  match n.routeInfo with
  | [] => st
  | r0 :: _ =>
    if st.outLinkIDList.length = 1 ∧ r0.id = firstLinkID then st
    else n.routeInfo.foldl (buildProcessLink vn) st

/-- The whole builder (source lines 223-273): seed the start node and
first link identifier, walk the selected slice, then close the graph
with the final link.  In the closing step the source has no `else`
branch at line 269, so when the destination node already exists the
Python local `vistaNode` keeps its stale loop value; an unassigned
`vistaNode` there (a `NameError` in the source) is modelled by a junk
node. -/
def buildSubgraph (vn : GraphLib) (g0 : PathEnd) (rest : List PathEnd) : BuildState :=
  let firstLink := g0.pointOnLink.link
  let prior : GraphNode :=
    { id := firstLink.origNode.id, gpsLat := firstLink.origNode.gpsLat,
      gpsLng := firstLink.origNode.gpsLng }
  let st0 : BuildState :=
    { subset := GraphLib.addNode { nodeMap := [], linkMap := [] } prior,
      vistaNodePrior := prior, lastVistaNode := none,
      outLinkIDList := [firstLink.id], warns := [] }
  let st1 := (g0 :: rest).foldl (buildProcessNode vn firstLink.id) st0
  let lastGTFS := (g0 :: rest).getLast (List.cons_ne_nil g0 rest)
  let dest := lastGTFS.pointOnLink.link.destNode
  let stC :=
    if (alookup st1.subset.nodeMap dest.id).isSome then st1
    else
      let nn : GraphNode := { id := dest.id, gpsLat := dest.gpsLat, gpsLng := dest.gpsLng }
      { st1 with subset := st1.subset.addNode nn, lastVistaNode := some nn }
  let closingDest : GraphNode := stC.lastVistaNode.getD { id := 0, gpsLat := 0, gpsLng := 0 }
  { stC with
    subset :=
      addLinkIfAbsent stC.subset
        { id := lastID stC.outLinkIDList, origNode := stC.vistaNodePrior,
          destNode := closingDest } }

/-! ## Leftover unmatched stops (source lines 377-396) -/

/-- The synthetic "error" diagnostic record of source lines 388-396:
a dummy shape at the stop's coordinates, a point on no link, and the
restart flag set. -/
def placeholderNode (shapeID : ℤ) (gst : StopTime) : PathEnd :=
  { shapeEntry :=
      { shapeID := shapeID, shapeSeq := gst.stopSeq, lat := gst.stop.gpsLat,
        lng := gst.stop.gpsLng, typeFlag := false },
    pointOnLink :=
      { link := nullLink, dist := 0, nonPerpPenalty := 0, refDist := 0,
        pointX := gst.stop.pointX, pointY := gst.stop.pointY },
    routeInfo := [], restart := true, totalCost := 0, totalDist := 0 }

/-- Processing of one scheduled stop after the walk (source lines
378-396): warn when its sequence was never found; with diagnostics on,
add a placeholder unless a reconstructed record already exists. -/
def leftoverStep (pr : Bool) (tripID shapeID : ℤ) (found : List ℤ)
    (st : List Warn × List (ℤ × PathEnd)) (gst : StopTime) :
    List Warn × List (ℤ × PathEnd) :=
  if gst.stopSeq ∈ found then st
  else
    let warns := st.1 ++ [Warn.unmatched tripID gst.stop.stopID gst.stopSeq]
    if pr then
      if (alookup st.2 gst.stopSeq).isSome then (warns, st.2)
      else (warns, aset st.2 gst.stopSeq (placeholderNode shapeID gst))
    else (warns, st.2)

/-- The leftover loop over all of the trip's scheduled stops. -/
def leftoverLoop (pr : Bool) (tripID shapeID : ℤ) (found : List ℤ)
    (stopTimes : List StopTime) (revised : List (ℤ × PathEnd)) :
    List Warn × List (ℤ × PathEnd) :=
  stopTimes.foldl (leftoverStep pr tripID shapeID found) ([], revised)

/-! ## Per-trip driver (source lines 165-396) -/

/-- The data of one trip as `dumpBusRouteLinks` consumes it:
`gtfsTrips[tripID].shapeEntries[0].shapeID` and
`gtfsStopTimes[gtfsTrips[tripID]]`. -/
structure TripInput where
  tripID : ℤ
  shapeID : ℤ
  stopTimes : List StopTime
deriving DecidableEq

/-- State shared across trips: the global assignment map `ret`, the
diagnostics accumulator `problemReportNodes`, and the rows/warnings
emitted so far. -/
structure TripState where
  ret : List (ℤ × PointOnLink)
  problemReportNodes : List (ℤ × List (ℤ × PathEnd))
  rows : List Row
  warns : List Warn
deriving DecidableEq

/-- The dictionary `gtfsStopsLookup` built at source lines 286-289. -/
def buildStopsLookup (stopTimes : List StopTime) : List (ℤ × StopTime) :=
  stopTimes.foldl (fun m gst => aset m gst.stopSeq gst) []

/-- The query sequence of source lines 277-293: a dummy entry at the
subpath's start node, one entry per scheduled stop, and a dummy entry
at the subpath's end node. -/
def mkQueryShapes (g0 gLast : PathEnd) (stopTimes : List StopTime) : List ShapesEntry :=
  [{ shapeID := -1, shapeSeq := -1, lat := g0.pointOnLink.link.origNode.gpsLat,
     lng := g0.pointOnLink.link.origNode.gpsLng, typeFlag := false }]
  ++ stopTimes.map (fun gst =>
      { shapeID := -1, shapeSeq := gst.stopSeq, lat := gst.stop.gpsLat,
        lng := gst.stop.gpsLng, typeFlag := false })
  ++ [{ shapeID := -1, shapeSeq := -1, lat := gLast.pointOnLink.link.destNode.gpsLat,
        lng := gLast.pointOnLink.link.destNode.gpsLng, typeFlag := false }]

/-- The diagnostics reconstruction of source lines 308-329: one record
per result-tree entry, re-keyed to the original network links, indexed
by stop sequence.  The predecessor chaining of lines 326-327 is not
modelled (no claim reads it); where the source would raise on a link
identifier missing from the base network, the model keeps the subgraph
link. -/
def buildRevised (vn : GraphLib) (shapeID : ℤ) (rt : List PathEnd) : List (ℤ × PathEnd) :=
  rt.foldl
    (fun m stopNode =>
      let origLink := (alookup vn.linkMap stopNode.pointOnLink.link.id).getD
        stopNode.pointOnLink.link
      let newNode : PathEnd :=
        { shapeEntry :=
            { shapeID := shapeID, shapeSeq := stopNode.shapeEntry.shapeSeq,
              lat := stopNode.shapeEntry.lat, lng := stopNode.shapeEntry.lng,
              typeFlag := false },
          pointOnLink :=
            { link := origLink, dist := stopNode.pointOnLink.dist,
              nonPerpPenalty := stopNode.pointOnLink.nonPerpPenalty,
              refDist := stopNode.pointOnLink.refDist, pointX := 0, pointY := 0 },
          routeInfo := stopNode.routeInfo.map (fun lk => (alookup vn.linkMap lk.id).getD lk),
          restart := false, totalCost := stopNode.totalCost,
          totalDist := stopNode.totalDist }
      aset m stopNode.shapeEntry.shapeSeq newNode)
    []

/-- Shape identifier of `treeNodes[i]` (`0` out of range; the source
only reads in-range indices). -/
def shapeIDAt (t : List PathEnd) (i : ℕ) : ℤ :=
  ((t.get? i).map (fun n => n.shapeEntry.shapeID)).getD 0

/-- Shape sequence of `treeNodes[i]` (`0` out of range). -/
def shapeSeqAt (t : List PathEnd) (i : ℕ) : ℤ :=
  ((t.get? i).map (fun n => n.shapeEntry.shapeSeq)).getD 0

/-- One iteration of the trip loop of `dumpBusRouteLinks` (source lines
165-396).  `cp` is the external path-matching search
`pathEngine.constructPath`, consumed as an opaque service.  A trip whose
shape has no matched path is skipped unchanged (lines 166-168). -/
def processTrip (pr : Bool) (vn : GraphLib)
    (cp : List ShapesEntry → GraphLib → List PathEnd)
    (gtfsNodes : List (ℤ × List PathEnd)) (st : TripState) (trip : TripInput) : TripState :=
  match alookup gtfsNodes trip.shapeID with
  | none => st
  | some treeNodes =>
    let sel := selectLoop treeNodes
    if 0 ≤ sel.longestStart then
      let ls := sel.longestStart.toNat
      let warnsTrim : List Warn :=
        if 0 < sel.longestStart ∨ sel.longestEnd < treeNodes.length then
          [Warn.trimmed (shapeIDAt treeNodes ls) (shapeSeqAt treeNodes ls)
            (shapeSeqAt treeNodes (sel.longestEnd - 1)) sel.longestLinkCount sel.totalLinks]
        else []
      match (treeNodes.drop ls).take (sel.longestEnd - ls) with
      | [] => st  -- unreachable: a selected interval contains at least one node
      | g0 :: restNodes =>
        let bst := buildSubgraph vn g0 restNodes
        let gLast := (g0 :: restNodes).getLast (List.cons_ne_nil g0 restNodes)
        let rt0 := cp (mkQueryShapes g0 gLast trip.stopTimes) bst.subset
        -- source lines 300-303: strip the two dummy ends
        let resultTree := (rt0.dropLast).drop 1
        let gl := buildStopsLookup trip.stopTimes
        let prn1 :=
          if pr then aset st.problemReportNodes trip.shapeID (buildRevised vn trip.shapeID resultTree)
          else st.problemReportNodes
        let w0 : WalkState :=
          { resultIndex := 0, found := [], outSeqCtr := sel.longestStart, ret := st.ret,
            rows := [], warns := [] }
        let wst := walkLinks resultTree gl trip.tripID w0 bst.outLinkIDList
        let lres := leftoverLoop pr trip.tripID trip.shapeID wst.found trip.stopTimes
          ((alookup prn1 trip.shapeID).getD [])
        let prn2 := if pr then aset prn1 trip.shapeID lres.2 else prn1
        { ret := wst.ret, problemReportNodes := prn2,
          rows := st.rows ++ wst.rows,
          warns := st.warns ++ warnsTrim ++ bst.warns ++ wst.warns ++ lres.1 }
    else { st with warns := st.warns ++ [Warn.noLinks trip.tripID] }

/-- The trip loop of `dumpBusRouteLinks` over all trips, in the caller's
(sorted) trip order. -/
def dumpBusRouteLinksModel (pr : Bool) (vn : GraphLib)
    (cp : List ShapesEntry → GraphLib → List PathEnd)
    (gtfsNodes : List (ℤ × List PathEnd)) (st0 : TripState) (trips : List TripInput) :
    TripState :=
  trips.foldl (processTrip pr vn cp gtfsNodes) st0

/-! ## Frequency table (source lines 511-522) -/

/-- The day-wrap of source lines 519-521: datetimes are modelled as
integer seconds; `int((refTime - stopTime).total_seconds() / 86400)` is
exact integer division here since both times are whole seconds and well
inside the double-exact range. -/
def freqStopTime (refTime stopTime : ℤ) : ℤ :=
  if stopTime < refTime then stopTime + 86400 * ((refTime - stopTime) / 86400 + 1)
  else stopTime

/-- One row of `public.bus_frequency.csv` (source line 522):
`tripID, 1, 86400, offset, 0`. -/
def busFrequencyRow (tripID refTime stopTime : ℤ) : List ℤ :=
  [tripID, 1, 86400, freqStopTime refTime stopTime - refTime, 0]

/-! ## Concrete sample data used by witnesses and counterexamples -/

/-- A sample network node. -/
def sampleNode (i : ℤ) : GraphNode := { id := i, gpsLat := 0, gpsLng := 0 }

/-- A sample network link with the given identifier. -/
def sampleLink (i : ℤ) : GraphLink :=
  { id := i, origNode := sampleNode 1, destNode := sampleNode 2 }

/-- A sample point-on-link on the link with identifier `linkID` and the
given reference distance. -/
def samplePOL (linkID : ℤ) (rd : ℚ) : PointOnLink :=
  { link := sampleLink linkID, dist := 0, nonPerpPenalty := 0, refDist := rd,
    pointX := 0, pointY := 0 }

/-- A sample result-tree entry matched to link `linkID`, tagged with
stop sequence `seq`, at reference distance `rd`. -/
def sampleEntry (linkID seq : ℤ) (rd : ℚ) : PathEnd :=
  { shapeEntry := { shapeID := -1, shapeSeq := seq, lat := 0, lng := 0, typeFlag := false },
    pointOnLink := samplePOL linkID rd, routeInfo := [], restart := false,
    totalCost := 0, totalDist := 0 }

/-- A sample scheduled stop-time with sequence `seq` and stop identifier
`sid`. -/
def sampleStopTime (seq sid : ℤ) : StopTime :=
  { stopSeq := seq,
    stop := { stopID := sid, gpsLat := 0, gpsLng := 0, pointX := 0, pointY := 0 },
    time := 0 }

/-- A sample matched position for the segment-selection scan with the
given restart flag and cumulative distance. -/
def selEntry (r : Bool) (d : ℚ) : PathEnd :=
  { shapeEntry := { shapeID := -1, shapeSeq := 0, lat := 0, lng := 0, typeFlag := false },
    pointOnLink := samplePOL 0 0, routeInfo := [], restart := r, totalCost := 0,
    totalDist := d }

/-- A fresh walk state with the given starting sequence counter and
assignment map (source lines 332-335). -/
def initWalkState (c0 : ℤ) (ret : List (ℤ × PointOnLink)) : WalkState :=
  { resultIndex := 0, found := [], outSeqCtr := c0, ret := ret, rows := [], warns := [] }

/-- Whether a result-tree entry's matched link is `lid` (the comparison
of source line 344). -/
def linkMatch (lid : ℤ) (e : PathEnd) : Bool := decide (e.pointOnLink.link.id = lid)

/-- The selection-relevant projection of the scan state: the interval
retained so far and its span. -/
structure SelSel where
  longestStart : ℤ
  longestEnd : ℕ
  longestDist : ℚ
deriving DecidableEq

/-- Projection of the full scan state onto the run-start marker and the
retained selection. -/
def selProj (s : SelState) : ℤ × SelSel :=
  (s.startIndex,
    { longestStart := s.longestStart, longestEnd := s.longestEnd, longestDist := s.longestDist })

/-- What the selection loop does to the projection at a boundary index. -/
def projStep (t : List PathEnd) (p : ℤ × SelSel) (i : ℕ) : ℤ × SelSel :=
  if (i : ℤ) > p.1 ∧ p.1 ≥ 0 then
    ((i : ℤ),
      if dAt t (i - 1) - dAt t p.1.toNat > p.2.longestDist then
        { longestStart := p.1, longestEnd := i,
          longestDist := dAt t (i - 1) - dAt t p.1.toNat }
      else p.2)
  else ((i : ℤ), p.2)

/-- The spec-side selection step over whole runs: keep the incumbent
unless the candidate run's span strictly exceeds it (so the
earliest-found run wins ties). -/
def runStep (t : List PathEnd) (sel : SelSel) (r : ℕ × ℕ) : SelSel :=
  if spanOf t r > sel.longestDist then
    { longestStart := (r.1 : ℤ), longestEnd := r.2, longestDist := spanOf t r }
  else sel

/-! # Theorems -/

/-- Unfolding of `alookup` over a cons cell. -/
theorem alookup_cons {α : Type} (k' : ℤ) (v' : α) (t : List (ℤ × α)) (k : ℤ) :
    alookup ((k', v') :: t) k = if k' = k then some v' else alookup t k := by
  simp only [alookup, List.find?]
  by_cases h : k' = k <;> simp [h]

/-- Looking up the key just stored. -/
theorem alookup_aset_self {α : Type} (l : List (ℤ × α)) (k : ℤ) (v : α) :
    alookup (aset l k v) k = some v := by
  induction l with
  | nil => simp [aset, alookup_cons]
  | cons p t ih =>
    obtain ⟨k', v'⟩ := p
    by_cases h : k' = k
    · simp [aset, h, alookup_cons]
    · simp [aset, h, alookup_cons, ih]

/-- Storing one key leaves other keys' lookups unchanged. -/
theorem alookup_aset_ne {α : Type} (l : List (ℤ × α)) (k k2 : ℤ) (v : α) (h : k2 ≠ k) :
    alookup (aset l k v) k2 = alookup l k2 := by
  induction l with
  | nil => simp [aset, alookup_cons, alookup, Ne.symm h]
  | cons p t ih =>
    obtain ⟨k', v'⟩ := p
    by_cases hk : k' = k
    · subst hk; simp [aset, alookup_cons, Ne.symm h]
    · simp [aset, hk, alookup_cons, ih]

/-- An absent key is exactly one outside the stored key set. -/
theorem alookup_eq_none_iff {α : Type} (l : List (ℤ × α)) (k : ℤ) :
    alookup l k = none ↔ k ∉ l.map Prod.fst := by
  induction l with
  | nil => simp [alookup]
  | cons p t ih =>
    obtain ⟨k', v'⟩ := p
    rw [alookup_cons]
    by_cases h : k' = k
    · simp [h]
    · simp [h, ih, Ne.symm h]

/-- Claim C10: a trip whose shape identifier has no entry in the matched
path-node mapping is skipped silently: no route-link rows, no warnings,
and an unchanged assignment map and diagnostics accumulator. -/
theorem processTrip_skips_unknown_shape (pr : Bool) (vn : GraphLib)
    (cp : List ShapesEntry → GraphLib → List PathEnd)
    (gtfsNodes : List (ℤ × List PathEnd)) (st : TripState) (trip : TripInput)
    (h : alookup gtfsNodes trip.shapeID = none) :
    processTrip pr vn cp gtfsNodes st trip = st := by
  unfold processTrip
  rw [h]

/-- Witness for claim C10 at a concrete skipped trip. -/
theorem processTrip_skips_unknown_shape_witness :
    alookup ([] : List (ℤ × List PathEnd)) (7 : ℤ) = none ∧
      processTrip false { nodeMap := [], linkMap := [] } (fun _ _ => []) []
          { ret := [], problemReportNodes := [], rows := [], warns := [] }
          { tripID := 7, shapeID := 7, stopTimes := [] }
        = { ret := [], problemReportNodes := [], rows := [], warns := [] } :=
  ⟨rfl, processTrip_skips_unknown_shape false { nodeMap := [], linkMap := [] }
    (fun _ _ => []) [] { ret := [], problemReportNodes := [], rows := [], warns := [] }
    { tripID := 7, shapeID := 7, stopTimes := [] } rfl⟩

/-- Claim C9: each frequency row is `tripID, 1, 86400, offset, 0`, where
the offset is the seconds from the reference time to the first stop
time after adding a nonnegative whole number of days, is nonnegative,
and adds no days when the stop time does not precede the reference
time. -/
theorem busFrequencyRow_offset_nonneg (tripID refTime stopTime : ℤ) :
    ∃ offset k : ℤ,
      busFrequencyRow tripID refTime stopTime = [tripID, 1, 86400, offset, 0] ∧
      0 ≤ offset ∧ 0 ≤ k ∧ offset = stopTime + 86400 * k - refTime ∧
      (refTime ≤ stopTime → k = 0) := by
  by_cases h : stopTime < refTime
  · refine ⟨stopTime + 86400 * ((refTime - stopTime) / 86400 + 1) - refTime,
      (refTime - stopTime) / 86400 + 1, ?_, ?_, ?_, rfl, ?_⟩
    · simp [busFrequencyRow, freqStopTime, if_pos h]
    · have h1 := Int.ediv_add_emod (refTime - stopTime) 86400
      have h2 : 0 ≤ (refTime - stopTime) % 86400 :=
        Int.emod_nonneg _ (by norm_num)
      have h3 : (refTime - stopTime) % 86400 < 86400 :=
        Int.emod_lt_of_pos _ (by norm_num)
      omega
    · have h4 : 0 ≤ (refTime - stopTime) / 86400 :=
        Int.ediv_nonneg (by omega) (by norm_num)
      omega
    · intro hle; exact absurd hle (not_le.mpr h)
  · refine ⟨stopTime - refTime, 0, ?_, by omega, le_refl 0, by ring, fun _ => rfl⟩
    simp [busFrequencyRow, freqStopTime, if_neg h]

/-- Witness for claim C9 at a concrete wrapped stop time. -/
theorem busFrequencyRow_offset_nonneg_witness :
    ∃ offset k : ℤ,
      busFrequencyRow 5 8 3 = [5, 1, 86400, offset, 0] ∧
      0 ≤ offset ∧ 0 ≤ k ∧ offset = 3 + 86400 * k - 8 ∧
      ((8 : ℤ) ≤ 3 → k = 0) :=
  busFrequencyRow_offset_nonneg 5 8 3

/-- Merging an assignment never changes the link an already-assigned
stop points to (source lines 364-371). -/
theorem assignStop_preserves_link (ret : List (ℤ × PointOnLink)) (sid : ℤ)
    (pol : PointOnLink) (s : ℤ) (p : PointOnLink) (h : alookup ret s = some p) :
    ∃ p', alookup (assignStop ret sid pol).1 s = some p' ∧ p'.link.id = p.link.id := by
  unfold assignStop
  by_cases hs : sid = s
  · subst hs
    rw [h]
    dsimp only
    by_cases hl : p.link.id ≠ pol.link.id
    · rw [if_pos hl]
      exact ⟨p, h, rfl⟩
    · rw [if_neg hl]
      push_neg at hl
      exact ⟨pol, alookup_aset_self ret sid pol, hl.symm⟩
  · cases hr : alookup ret sid with
    | none =>
      dsimp only
      exact ⟨p, by rw [alookup_aset_ne ret sid s pol (Ne.symm hs)]; exact h, rfl⟩
    | some q =>
      dsimp only
      by_cases hl : q.link.id ≠ pol.link.id
      · rw [if_pos hl]
        exact ⟨p, h, rfl⟩
      · rw [if_neg hl]
        exact ⟨p, by rw [alookup_aset_ne ret sid s pol (Ne.symm hs)]; exact h, rfl⟩

/-- One walk step never changes the link an already-assigned stop points
to. -/
theorem walkLink_preserves_link (rt : List PathEnd) (gl : List (ℤ × StopTime))
    (tripID : ℤ) (st : WalkState) (linkID : ℤ) (s : ℤ) (p : PointOnLink)
    (h : alookup st.ret s = some p) :
    ∃ p', alookup (walkLink rt gl tripID st linkID).ret s = some p'
      ∧ p'.link.id = p.link.id := by
  unfold walkLink
  dsimp only
  split
  · split
    · exact assignStop_preserves_link st.ret _ _ s p h
    · exact ⟨p, h, rfl⟩
  · exact ⟨p, h, rfl⟩

/-- The whole walk never changes the link an already-assigned stop
points to. -/
theorem walkLinks_preserves_link (rt : List PathEnd) (gl : List (ℤ × StopTime))
    (tripID : ℤ) (links : List ℤ) :
    ∀ (st : WalkState) (s : ℤ) (p : PointOnLink), alookup st.ret s = some p →
    ∃ p', alookup (walkLinks rt gl tripID st links).ret s = some p'
      ∧ p'.link.id = p.link.id := by
  induction links with
  | nil => exact fun st s p h => ⟨p, h, rfl⟩
  | cons lk t ih =>
    intro st s p h
    obtain ⟨p1, h1, e1⟩ := walkLink_preserves_link rt gl tripID st lk s p h
    obtain ⟨p2, h2, e2⟩ := ih (walkLink rt gl tripID st lk) s p1 h1
    exact ⟨p2, h2, e2.trans e1⟩

/-- One trip never changes the link an already-assigned stop points to. -/
theorem processTrip_preserves_link (pr : Bool) (vn : GraphLib)
    (cp : List ShapesEntry → GraphLib → List PathEnd)
    (gtfsNodes : List (ℤ × List PathEnd)) (st : TripState) (trip : TripInput)
    (s : ℤ) (p : PointOnLink) (h : alookup st.ret s = some p) :
    ∃ p', alookup (processTrip pr vn cp gtfsNodes st trip).ret s = some p'
      ∧ p'.link.id = p.link.id := by
  unfold processTrip
  cases hg : alookup gtfsNodes trip.shapeID with
  | none => exact ⟨p, h, rfl⟩
  | some treeNodes =>
    dsimp only
    split
    · split
      · exact ⟨p, h, rfl⟩
      · exact walkLinks_preserves_link _ _ _ _ _ s p h
    · exact ⟨p, h, rfl⟩

/-- The whole trip loop never changes the link an already-assigned stop
points to. -/
theorem dumpModel_preserves_link (pr : Bool) (vn : GraphLib)
    (cp : List ShapesEntry → GraphLib → List PathEnd)
    (gtfsNodes : List (ℤ × List PathEnd)) (trips : List TripInput) :
    ∀ (st : TripState) (s : ℤ) (p : PointOnLink), alookup st.ret s = some p →
    ∃ p', alookup (dumpBusRouteLinksModel pr vn cp gtfsNodes st trips).ret s = some p'
      ∧ p'.link.id = p.link.id := by
  induction trips with
  | nil => exact fun st s p h => ⟨p, h, rfl⟩
  | cons trip t ih =>
    intro st s p h
    obtain ⟨p1, h1, e1⟩ := processTrip_preserves_link pr vn cp gtfsNodes st trip s p h
    obtain ⟨p2, h2, e2⟩ := ih (processTrip pr vn cp gtfsNodes st trip) s p1 h1
    exact ⟨p2, h2, e2.trans e1⟩

/-- Claim C1: once the assignment map binds a stop to a point-on-link,
no later processing rebinds it to a point on a different link — over any
run of the trip loop the bound link identifier is preserved — and an
attempted assignment of that stop to a point on a different link returns
the map unchanged together with a logged conflict warning. -/
theorem dumpBusRouteLinks_first_writer_wins (pr : Bool) (vn : GraphLib)
    (cp : List ShapesEntry → GraphLib → List PathEnd)
    (gtfsNodes : List (ℤ × List PathEnd)) (trips : List TripInput) (st0 : TripState)
    (s : ℤ) (p : PointOnLink) (pol : PointOnLink)
    (h : alookup st0.ret s = some p) (hl : p.link.id ≠ pol.link.id) :
    (∃ p', alookup (dumpBusRouteLinksModel pr vn cp gtfsNodes st0 trips).ret s = some p'
        ∧ p'.link.id = p.link.id)
    ∧ assignStop st0.ret s pol = (st0.ret, [Warn.conflict s pol.link.id p.link.id]) := by
  refine ⟨dumpModel_preserves_link pr vn cp gtfsNodes trips st0 s p h, ?_⟩
  unfold assignStop
  rw [h]
  dsimp only
  rw [if_pos hl]

/-- Witness for claim C1 at a concrete one-entry assignment map and a
conflicting point on a different link. -/
theorem dumpBusRouteLinks_first_writer_wins_witness :
    alookup [((5 : ℤ), samplePOL 10 1)] 5 = some (samplePOL 10 1) ∧
    (samplePOL 10 1).link.id ≠ (samplePOL 11 2).link.id ∧
    ((∃ p', alookup (dumpBusRouteLinksModel false { nodeMap := [], linkMap := [] }
          (fun _ _ => []) []
          { ret := [((5 : ℤ), samplePOL 10 1)], problemReportNodes := [], rows := [], warns := [] }
          [{ tripID := 1, shapeID := 1, stopTimes := [] }]).ret 5 = some p'
        ∧ p'.link.id = (samplePOL 10 1).link.id)
    ∧ assignStop [((5 : ℤ), samplePOL 10 1)] 5 (samplePOL 11 2)
        = ([((5 : ℤ), samplePOL 10 1)],
           [Warn.conflict 5 (samplePOL 11 2).link.id (samplePOL 10 1).link.id])) :=
  ⟨rfl, by decide,
    dumpBusRouteLinks_first_writer_wins false { nodeMap := [], linkMap := [] }
      (fun _ _ => []) [] [{ tripID := 1, shapeID := 1, stopTimes := [] }]
      { ret := [((5 : ℤ), samplePOL 10 1)], problemReportNodes := [], rows := [], warns := [] }
      5 (samplePOL 10 1) (samplePOL 11 2) rfl (by decide)⟩

/-- A guarded insertion with the identifier already present leaves the
graph unchanged. -/
theorem addLinkIfAbsent_skips (g : GraphLib) (lk : GraphLink)
    (h : (alookup g.linkMap lk.id).isSome = true) : addLinkIfAbsent g lk = g := by
  unfold addLinkIfAbsent
  rw [if_pos h]

/-- A guarded insertion preserves duplicate-freedom of the link
identifiers. -/
theorem addLinkIfAbsent_nodup (g : GraphLib) (lk : GraphLink)
    (h : (g.linkMap.map Prod.fst).Nodup) :
    ((addLinkIfAbsent g lk).linkMap.map Prod.fst).Nodup := by
  unfold addLinkIfAbsent
  split
  · exact h
  · rename_i hn
    have hmem : lk.id ∉ g.linkMap.map Prod.fst := by
      rw [← alookup_eq_none_iff]
      cases hq : alookup g.linkMap lk.id with
      | none => rfl
      | some q => exact absurd (by rw [hq]; rfl) hn
    unfold GraphLib.addLink
    simp only [List.map_append, List.map_cons, List.map_nil]
    rw [List.nodup_append]
    exact ⟨h, List.nodup_singleton _, by simpa using hmem⟩

/-- A fold preserves any invariant its step function preserves. -/
theorem foldl_preserves {α β : Type} (P : α → Prop) (f : α → β → α)
    (hf : ∀ a b, P a → P (f a b)) :
    ∀ (l : List β) (a : α), P a → P (l.foldl f a) := by
  intro l
  induction l with
  | nil => exact fun a h => h
  | cons b t ih => exact fun a h => ih (f a b) (hf a b h)

/-- Processing one traversed link preserves duplicate-freedom of the
subgraph's link identifiers. -/
theorem buildProcessLink_nodup (vn : GraphLib) (st : BuildState) (link : GraphLink)
    (h : (st.subset.linkMap.map Prod.fst).Nodup) :
    ((buildProcessLink vn st link).subset.linkMap.map Prod.fst).Nodup := by
  unfold buildProcessLink
  cases alookup vn.linkMap link.id with
  | none => exact h
  | some origVistaLink =>
    dsimp only
    apply addLinkIfAbsent_nodup
    cases alookup st.subset.nodeMap origVistaLink.origNode.id with
    | none => exact h
    | some n => exact h

/-- Processing one matched position preserves duplicate-freedom of the
subgraph's link identifiers. -/
theorem buildProcessNode_nodup (vn : GraphLib) (firstLinkID : ℤ) (st : BuildState)
    (n : PathEnd) (h : (st.subset.linkMap.map Prod.fst).Nodup) :
    ((buildProcessNode vn firstLinkID st n).subset.linkMap.map Prod.fst).Nodup := by
  unfold buildProcessNode
  cases n.routeInfo with
  | nil => exact h
  | cons r0 rs =>
    dsimp only
    split
    · exact h
    · exact foldl_preserves (fun bst => (bst.subset.linkMap.map Prod.fst).Nodup)
        (buildProcessLink vn) (fun a b => buildProcessLink_nodup vn a b) _ st h

/-- Claim C4: the ephemeral subgraph built for a trip never contains two
links with the same identifier, and an insertion whose identifier is
already present in the link map is skipped. -/
theorem buildSubgraph_no_duplicate_link_ids (vn : GraphLib) (g0 : PathEnd)
    (rest : List PathEnd) (g : GraphLib) (lk : GraphLink)
    (h : (alookup g.linkMap lk.id).isSome = true) :
    ((buildSubgraph vn g0 rest).subset.linkMap.map Prod.fst).Nodup ∧
    addLinkIfAbsent g lk = g := by
  refine ⟨?_, addLinkIfAbsent_skips g lk h⟩
  unfold buildSubgraph
  dsimp only
  apply addLinkIfAbsent_nodup
  split
  all_goals
    refine foldl_preserves (fun bst => (bst.subset.linkMap.map Prod.fst).Nodup)
      (buildProcessNode vn g0.pointOnLink.link.id)
      (fun a b => buildProcessNode_nodup vn g0.pointOnLink.link.id a b) (g0 :: rest) _ ?_
    simp [GraphLib.addNode]

/-- Witness for claim C4 on a concrete one-position trip slice and a
concrete graph already holding the link identifier. -/
theorem buildSubgraph_no_duplicate_link_ids_witness :
    ((alookup ({ nodeMap := [], linkMap := [(3, sampleLink 3)] } :
        GraphLib).linkMap (sampleLink 3).id).isSome = true) ∧
    (((buildSubgraph { nodeMap := [], linkMap := [] } (sampleEntry 1 0 0) []).subset.linkMap.map
        Prod.fst).Nodup ∧
      addLinkIfAbsent { nodeMap := [], linkMap := [(3, sampleLink 3)] } (sampleLink 3)
        = { nodeMap := [], linkMap := [(3, sampleLink 3)] }) :=
  ⟨by decide,
    buildSubgraph_no_duplicate_link_ids { nodeMap := [], linkMap := [] } (sampleEntry 1 0 0) []
      { nodeMap := [], linkMap := [(3, sampleLink 3)] } (sampleLink 3) (by decide)⟩

/-- Each walk step appends exactly one row, for the current link, with
the current sequence counter, and then increments the counter. -/
theorem walkLink_row_shape (rt : List PathEnd) (gl : List (ℤ × StopTime)) (tripID : ℤ)
    (st : WalkState) (linkID : ℤ) :
    ∃ stp dwl, (walkLink rt gl tripID st linkID).rows
        = st.rows ++ [{ tripID := tripID, seq := st.outSeqCtr, linkID := linkID,
                        stop := stp, dwell := dwl }]
      ∧ (walkLink rt gl tripID st linkID).outSeqCtr = st.outSeqCtr + 1 := by
  unfold walkLink
  dsimp only
  split
  · split
    · exact ⟨_, _, rfl, rfl⟩
    · exact ⟨none, none, rfl, rfl⟩
  · exact ⟨none, none, rfl, rfl⟩

/-- The walk's rows project to the link sequence and to consecutive
sequence numbers from the starting counter. -/
theorem walkLinks_rows (rt : List PathEnd) (gl : List (ℤ × StopTime)) (tripID : ℤ) :
    ∀ (links : List ℤ) (st : WalkState),
    (walkLinks rt gl tripID st links).rows.map (fun r => r.linkID)
        = st.rows.map (fun r => r.linkID) ++ links
    ∧ (walkLinks rt gl tripID st links).rows.map (fun r => r.seq)
        = st.rows.map (fun r => r.seq)
          ++ (List.range links.length).map (fun i : ℕ => st.outSeqCtr + (i : ℤ)) := by
  intro links
  induction links with
  | nil => intro st; simp [walkLinks]
  | cons lk t ih =>
    intro st
    obtain ⟨stp, dwl, hrows, hctr⟩ := walkLink_row_shape rt gl tripID st lk
    have h2 := ih (walkLink rt gl tripID st lk)
    have hstep : walkLinks rt gl tripID st (lk :: t)
        = walkLinks rt gl tripID (walkLink rt gl tripID st lk) t := rfl
    constructor
    · rw [hstep, h2.1, hrows]
      simp
    · rw [hstep, h2.2, hrows, hctr]
      have hfun : (fun i : ℕ => st.outSeqCtr + 1 + (i : ℤ))
          = (fun i : ℕ => st.outSeqCtr + ((i + 1 : ℕ) : ℤ)) := by
        funext i; push_cast; ring
      simp only [List.range_succ_eq_map, List.map_append, List.map_cons, List.map_nil,
        List.map_map, List.length_cons, hfun]
      simp [Function.comp_def]

/-- Claim C8: for a trip that is processed (matched shape, selected run,
nonempty slice), the emitted route-link rows follow the subgraph
traversal order `outLinkIDList` and carry contiguous consecutive
sequence numbers starting at the selected run's start index
`longestStart`, not at zero. -/
theorem processTrip_rows_order_numbering (pr : Bool) (vn : GraphLib)
    (cp : List ShapesEntry → GraphLib → List PathEnd)
    (gtfsNodes : List (ℤ × List PathEnd)) (st : TripState) (trip : TripInput)
    (treeNodes : List PathEnd) (g0 : PathEnd) (restNodes : List PathEnd)
    (h1 : alookup gtfsNodes trip.shapeID = some treeNodes)
    (h2 : 0 ≤ (selectLoop treeNodes).longestStart)
    (h3 : (treeNodes.drop (selectLoop treeNodes).longestStart.toNat).take
            ((selectLoop treeNodes).longestEnd - (selectLoop treeNodes).longestStart.toNat)
          = g0 :: restNodes) :
    ∃ emitted : List Row,
      (processTrip pr vn cp gtfsNodes st trip).rows = st.rows ++ emitted ∧
      emitted.map (fun r => r.linkID) = (buildSubgraph vn g0 restNodes).outLinkIDList ∧
      emitted.map (fun r => r.seq)
        = (List.range (buildSubgraph vn g0 restNodes).outLinkIDList.length).map
            (fun i : ℕ => (selectLoop treeNodes).longestStart + (i : ℤ)) := by
  unfold processTrip
  rw [h1]
  dsimp only
  rw [if_pos h2, h3]
  dsimp only
  refine ⟨_, rfl, ?_, ?_⟩
  · exact (walkLinks_rows _ _ _ _ _).1
  · exact (walkLinks_rows _ _ _ _ _).2

/-- The initial best distance is positive. -/
theorem minFloat_pos : 0 < minFloat := by decide

/-- The initial best distance is below one. -/
theorem minFloat_lt_one : minFloat < 1 := by decide

/-- Concrete evaluation of the selector on a two-position run of span
one: the whole sequence is selected. -/
theorem selectLoop_pair_start : (selectLoop [selEntry true 0, selEntry false 1]).longestStart = 0 := by
  rw [selectLoop, show List.range ([selEntry true 0, selEntry false 1].length + 1) = [0, 1, 2] from rfl]
  simp only [List.foldl_cons, List.foldl_nil]
  norm_num [selStep, selInit, restartAt, dAt, routeLenAt, selEntry, samplePOL, sampleLink,
    sampleNode, Rat.mkRat_eq_div, minFloat]

/-- Concrete evaluation of the selector on a two-position run of span
one: the selected interval ends at the sequence's length. -/
theorem selectLoop_pair_end : (selectLoop [selEntry true 0, selEntry false 1]).longestEnd = 2 := by
  rw [selectLoop, show List.range ([selEntry true 0, selEntry false 1].length + 1) = [0, 1, 2] from rfl]
  simp only [List.foldl_cons, List.foldl_nil]
  norm_num [selStep, selInit, restartAt, dAt, routeLenAt, selEntry, samplePOL, sampleLink,
    sampleNode, Rat.mkRat_eq_div, minFloat]

/-- Witness for claim C8 on a concrete two-position trip. -/
theorem processTrip_rows_order_numbering_witness :
    alookup [((1 : ℤ), [selEntry true 0, selEntry false 1])] 1
        = some [selEntry true 0, selEntry false 1] ∧
    0 ≤ (selectLoop [selEntry true 0, selEntry false 1]).longestStart ∧
    (([selEntry true 0, selEntry false 1].drop
        (selectLoop [selEntry true 0, selEntry false 1]).longestStart.toNat).take
        ((selectLoop [selEntry true 0, selEntry false 1]).longestEnd
          - (selectLoop [selEntry true 0, selEntry false 1]).longestStart.toNat)
      = selEntry true 0 :: [selEntry false 1]) ∧
    ∃ emitted : List Row,
      (processTrip false { nodeMap := [], linkMap := [] } (fun _ _ => [])
          [((1 : ℤ), [selEntry true 0, selEntry false 1])]
          { ret := [], problemReportNodes := [], rows := [], warns := [] }
          { tripID := 1, shapeID := 1, stopTimes := [] }).rows
        = ({ ret := [], problemReportNodes := [], rows := [], warns := [] } :
            TripState).rows ++ emitted ∧
      emitted.map (fun r => r.linkID)
        = (buildSubgraph { nodeMap := [], linkMap := [] } (selEntry true 0)
            [selEntry false 1]).outLinkIDList ∧
      emitted.map (fun r => r.seq)
        = (List.range (buildSubgraph { nodeMap := [], linkMap := [] } (selEntry true 0)
            [selEntry false 1]).outLinkIDList.length).map
            (fun i : ℕ => (selectLoop [selEntry true 0, selEntry false 1]).longestStart + (i : ℤ)) :=
  ⟨rfl, by rw [selectLoop_pair_start], by rw [selectLoop_pair_start, selectLoop_pair_end]; rfl,
    processTrip_rows_order_numbering false { nodeMap := [], linkMap := [] } (fun _ _ => [])
      [((1 : ℤ), [selEntry true 0, selEntry false 1])]
      { ret := [], problemReportNodes := [], rows := [], warns := [] }
      { tripID := 1, shapeID := 1, stopTimes := [] }
      [selEntry true 0, selEntry false 1] (selEntry true 0) [selEntry false 1]
      rfl (by rw [selectLoop_pair_start]) (by rw [selectLoop_pair_start, selectLoop_pair_end]; rfl)⟩

/-- Counterexample to claim C5 as stated: when a self-crossing trip
repeats a link identifier in the output link sequence and the matched
entries for that identifier are separated in the result tree, two rows
of the same trip for that link identifier both carry a stop. -/
theorem walk_two_stop_rows_for_one_link :
    ((walkLinks [sampleEntry 1 10 1, sampleEntry 2 11 1, sampleEntry 1 12 1]
        (buildStopsLookup [sampleStopTime 10 200, sampleStopTime 11 201, sampleStopTime 12 202])
        9 (initWalkState 0 []) [1, 2, 1]).rows.filter
      (fun r => r.stop.isSome && decide (r.linkID = 1))).length = 2 := by
  decide

/-- Claim C5 (amended): each occurrence of a link in the output link
sequence yields at most one stop-carrying row, so when the output link
sequence has no duplicate identifiers — the source deduplicates the
subgraph's links but not `outLinkIDList` itself — no link identifier
appears in two stop-carrying rows of the same trip. -/
theorem walk_at_most_one_stop_per_link (rt : List PathEnd) (gl : List (ℤ × StopTime))
    (tripID : ℤ) (c0 : ℤ) (ret0 : List (ℤ × PointOnLink)) (links : List ℤ)
    (hnd : links.Nodup) :
    ((walkLinks rt gl tripID (initWalkState c0 ret0) links).rows).Pairwise
      (fun r1 r2 => r1.stop.isSome → r2.stop.isSome → r1.linkID ≠ r2.linkID) := by
  have h := (walkLinks_rows rt gl tripID links (initWalkState c0 ret0)).1
  have hmap : ((walkLinks rt gl tripID (initWalkState c0 ret0) links).rows.map
      (fun r => r.linkID)).Nodup := by
    rw [h]; simpa [initWalkState] using hnd
  have hpw := List.pairwise_map.mp hmap
  exact hpw.imp (fun hne _ _ => hne)

/-- Witness for amended claim C5 on a concrete duplicate-free link
sequence. -/
theorem walk_at_most_one_stop_per_link_witness :
    ([1, 2] : List ℤ).Nodup ∧
    ((walkLinks [sampleEntry 1 10 1] (buildStopsLookup [sampleStopTime 10 200]) 9
        (initWalkState 0 []) [1, 2]).rows).Pairwise
      (fun r1 r2 => r1.stop.isSome → r2.stop.isSome → r1.linkID ≠ r2.linkID) :=
  ⟨by decide, walk_at_most_one_stop_per_link _ _ _ _ _ _ (by decide)⟩

/-- The scan returns its state unchanged once the cursor has passed the
end of the result tree. -/
theorem scanFuel_terminal (rt : List PathEnd) (lid : ℤ) (fuel ri cur m : ℕ)
    (b : Option PathEnd) (f : List ℤ) (h : ¬ cur < rt.length) :
    scanFuel rt lid fuel ri cur m b f
      = { resultIndex := ri, matchCtr := m, best := b, found := f } := by
  cases fuel with
  | zero => rfl
  | succ n =>
    simp only [scanFuel]
    rw [dif_neg h]

/-- In-range reading of `matchAt`. -/
theorem matchAt_eq_get (rt : List PathEnd) (i : ℕ) (lid : ℤ) (h : i < rt.length) :
    matchAt rt i lid = linkMatch lid rt[i] := by
  simp [matchAt, linkMatch, List.getElem?_eq_getElem h]

/-- Out-of-range reading of `matchAt`. -/
theorem matchAt_eq_false (rt : List PathEnd) (i : ℕ) (lid : ℤ) (h : ¬ i < rt.length) :
    matchAt rt i lid = false := by
  have hh : rt.length ≤ i := by omega
  simp [matchAt, List.getElem?_eq_none hh]

/-- Once inside a matching block (the cursor has caught up with the
persistent index and at least one match was counted), the scan consumes
exactly the remaining contiguous matching entries and stops. -/
theorem scanFuel_block (rt : List PathEnd) (lid : ℤ) :
    ∀ (fuel cur m : ℕ) (best : Option PathEnd) (f : List ℤ),
      m ≠ 0 → rt.length + 1 - cur ≤ fuel →
      ∃ best',
        scanFuel rt lid fuel cur cur m best f
          = { resultIndex := cur + ((rt.drop cur).takeWhile (linkMatch lid)).length,
              matchCtr := m + ((rt.drop cur).takeWhile (linkMatch lid)).length,
              best := best',
              found := ((rt.drop cur).takeWhile (linkMatch lid)).foldl
                  (fun s e => s.insert e.shapeEntry.shapeSeq) f } := by
  intro fuel
  induction fuel with
  | zero =>
    intro cur m best f _hm hfuel
    have hd : rt.drop cur = [] := List.drop_eq_nil_iff.mpr (by omega)
    exact ⟨best, by simp [scanFuel, hd]⟩
  | succ n ih =>
    intro cur m best f hm hfuel
    by_cases hc : cur < rt.length
    · have hdrop : rt.drop cur = rt[cur] :: rt.drop (cur + 1) := List.drop_eq_getElem_cons hc
      by_cases hp : rt[cur].pointOnLink.link.id = lid
      · have htw : (rt.drop cur).takeWhile (linkMatch lid)
            = rt[cur] :: (rt.drop (cur + 1)).takeWhile (linkMatch lid) := by
          rw [hdrop, List.takeWhile_cons]
          simp [linkMatch, hp]
        by_cases hcond : cur + 1 < rt.length ∧ matchAt rt (cur + 1) lid = true
        · obtain ⟨best2, heq⟩ := ih (cur + 1) (m + 1)
            (bestUpdate best (rt.get? cur))
            (f.insert rt[cur].shapeEntry.shapeSeq)
            (by omega) (by omega)
          refine ⟨best2, ?_⟩
          simp only [scanFuel]
          rw [dif_pos hc]
          simp only [List.get_eq_getElem]
          rw [if_pos hp, if_pos (Or.inr hcond)]
          rw [heq, htw, ScanSt.mk.injEq]
          refine ⟨?_, ?_, rfl, ?_⟩
          · simp only [List.length_cons]; omega
          · simp only [List.length_cons]; omega
          · rw [List.foldl_cons]
        · have hblk : (rt.drop (cur + 1)).takeWhile (linkMatch lid) = [] := by
            by_cases hc2 : cur + 1 < rt.length
            · have hm2 : matchAt rt (cur + 1) lid = false := by
                cases hb : matchAt rt (cur + 1) lid
                · rfl
                · exact absurd ⟨hc2, hb⟩ hcond
              have hdrop2 : rt.drop (cur + 1) = rt[cur + 1] :: rt.drop (cur + 2) :=
                List.drop_eq_getElem_cons hc2
              rw [matchAt_eq_get rt (cur + 1) lid hc2] at hm2
              rw [hdrop2, List.takeWhile_cons, hm2]
              rfl
            · have hd2 : rt.drop (cur + 1) = [] := List.drop_eq_nil_iff.mpr (by omega)
              simp [hd2]
          refine ⟨bestUpdate best (rt.get? cur), ?_⟩
          simp only [scanFuel]
          rw [dif_pos hc]
          simp only [List.get_eq_getElem]
          rw [if_pos hp, if_neg ?hneg]
          case hneg =>
            rintro (h0 | hco)
            · omega
            · exact hcond hco
          rw [htw, hblk, ScanSt.mk.injEq]
          refine ⟨?_, ?_, rfl, ?_⟩
          · simp only [List.length_cons, List.length_nil]
          · simp only [List.length_cons, List.length_nil]
          · rw [List.foldl_cons, List.foldl_nil]
      · have htw : (rt.drop cur).takeWhile (linkMatch lid) = [] := by
          rw [hdrop, List.takeWhile_cons]
          simp [linkMatch, hp]
        refine ⟨best, ?_⟩
        simp only [scanFuel]
        rw [dif_pos hc]
        simp only [List.get_eq_getElem]
        rw [if_neg hp, if_neg ?hneg2]
        case hneg2 =>
          rintro (h0 | hco)
          · omega
          · rw [matchAt_eq_get rt cur lid hc] at hco
            exact hp (of_decide_eq_true hco.2)
        rw [htw]
        simp
    · have hd : rt.drop cur = [] := List.drop_eq_nil_iff.mpr (by omega)
      refine ⟨best, ?_⟩
      rw [scanFuel_terminal rt lid (n + 1) cur cur m best f hc]
      simp [hd]

/-- From a fresh scan state (no match counted yet), the scan skips
leading non-matching entries, consumes the first contiguous matching
block, and otherwise leaves its state untouched. -/
theorem scanFuel_skip (rt : List PathEnd) (lid : ℤ) :
    ∀ (fuel cur ri : ℕ) (best : Option PathEnd) (f : List ℤ),
      rt.length + 1 - cur ≤ fuel →
      ∃ best',
        scanFuel rt lid fuel ri cur 0 best f
          = if (((rt.drop cur).drop
                  ((rt.drop cur).takeWhile (fun e => !(linkMatch lid e))).length).takeWhile
                (linkMatch lid)) = [] then
              { resultIndex := ri, matchCtr := 0, best := best, found := f }
            else
              { resultIndex := cur
                  + ((rt.drop cur).takeWhile (fun e => !(linkMatch lid e))).length
                  + (((rt.drop cur).drop
                      ((rt.drop cur).takeWhile (fun e => !(linkMatch lid e))).length).takeWhile
                    (linkMatch lid)).length,
                matchCtr := (((rt.drop cur).drop
                    ((rt.drop cur).takeWhile (fun e => !(linkMatch lid e))).length).takeWhile
                  (linkMatch lid)).length,
                best := best',
                found := (((rt.drop cur).drop
                    ((rt.drop cur).takeWhile (fun e => !(linkMatch lid e))).length).takeWhile
                  (linkMatch lid)).foldl (fun s e => s.insert e.shapeEntry.shapeSeq) f } := by
  intro fuel
  induction fuel with
  | zero =>
    intro cur ri best f hfuel
    have hd : rt.drop cur = [] := List.drop_eq_nil_iff.mpr (by omega)
    refine ⟨best, ?_⟩
    rw [scanFuel_terminal rt lid 0 ri cur 0 best f (by omega)]
    simp [hd]
  | succ n ih =>
    intro cur ri best f hfuel
    by_cases hc : cur < rt.length
    · have hdrop : rt.drop cur = rt[cur] :: rt.drop (cur + 1) := List.drop_eq_getElem_cons hc
      by_cases hp : rt[cur].pointOnLink.link.id = lid
      · have hpre : (rt.drop cur).takeWhile (fun e => !(linkMatch lid e)) = [] := by
          rw [hdrop, List.takeWhile_cons]
          simp [linkMatch, hp]
        have hblk : ((rt.drop cur).drop
              ((rt.drop cur).takeWhile (fun e => !(linkMatch lid e))).length).takeWhile
              (linkMatch lid)
            = rt[cur] :: (rt.drop (cur + 1)).takeWhile (linkMatch lid) := by
          rw [hpre]
          simp only [List.length_nil, List.drop_zero]
          rw [hdrop, List.takeWhile_cons]
          simp [linkMatch, hp]
        by_cases hcond : cur + 1 < rt.length ∧ matchAt rt (cur + 1) lid = true
        · obtain ⟨best2, heq⟩ := scanFuel_block rt lid n (cur + 1) 1
            (bestUpdate best (rt.get? ri)) (f.insert rt[cur].shapeEntry.shapeSeq)
            (by omega) (by omega)
          refine ⟨best2, ?_⟩
          simp only [scanFuel]
          rw [dif_pos hc]
          simp only [List.get_eq_getElem]
          rw [if_pos hp, if_pos (Or.inr hcond), heq, hblk, hpre,
            if_neg (List.cons_ne_nil _ _), ScanSt.mk.injEq]
          refine ⟨?_, ?_, rfl, ?_⟩
          · simp only [List.length_cons, List.length_nil]; omega
          · simp only [List.length_cons]; omega
          · rw [List.foldl_cons]
        · have hblk2 : (rt.drop (cur + 1)).takeWhile (linkMatch lid) = [] := by
            by_cases hc2 : cur + 1 < rt.length
            · have hm2 : matchAt rt (cur + 1) lid = false := by
                cases hb : matchAt rt (cur + 1) lid
                · rfl
                · exact absurd ⟨hc2, hb⟩ hcond
              have hdrop2 : rt.drop (cur + 1) = rt[cur + 1] :: rt.drop (cur + 2) :=
                List.drop_eq_getElem_cons hc2
              rw [matchAt_eq_get rt (cur + 1) lid hc2] at hm2
              rw [hdrop2, List.takeWhile_cons, hm2]
              rfl
            · have hd2 : rt.drop (cur + 1) = [] := List.drop_eq_nil_iff.mpr (by omega)
              simp [hd2]
          refine ⟨bestUpdate best (rt.get? ri), ?_⟩
          simp only [scanFuel]
          rw [dif_pos hc]
          simp only [List.get_eq_getElem]
          rw [if_pos hp, if_neg ?hneg]
          case hneg =>
            rintro (h0 | hco)
            · omega
            · exact hcond hco
          rw [hblk, hblk2, hpre, if_neg (List.cons_ne_nil _ _), ScanSt.mk.injEq]
          refine ⟨?_, ?_, rfl, ?_⟩
          · simp only [List.length_cons, List.length_nil]
          · simp only [List.length_cons, List.length_nil]
          · rw [List.foldl_cons, List.foldl_nil]
      · have hpre : (rt.drop cur).takeWhile (fun e => !(linkMatch lid e))
            = rt[cur] :: (rt.drop (cur + 1)).takeWhile (fun e => !(linkMatch lid e)) := by
          rw [hdrop, List.takeWhile_cons]
          simp [linkMatch, hp]
        have hdd : (rt.drop cur).drop
              ((rt.drop cur).takeWhile (fun e => !(linkMatch lid e))).length
            = (rt.drop (cur + 1)).drop
              ((rt.drop (cur + 1)).takeWhile (fun e => !(linkMatch lid e))).length := by
          rw [hpre, hdrop]
          simp only [List.length_cons, List.drop_succ_cons]
        obtain ⟨best2, heq⟩ := ih (cur + 1) ri best f (by omega)
        refine ⟨best2, ?_⟩
        simp only [scanFuel]
        rw [dif_pos hc]
        simp only [List.get_eq_getElem]
        rw [if_neg hp]
        simp only [true_or, if_true]
        rw [heq, hdd, hpre]
        by_cases hb : ((rt.drop (cur + 1)).drop
            ((rt.drop (cur + 1)).takeWhile (fun e => !(linkMatch lid e))).length).takeWhile
            (linkMatch lid) = []
        · rw [if_pos hb, if_pos hb]
        · rw [if_neg hb, if_neg hb, ScanSt.mk.injEq]
          refine ⟨?_, rfl, rfl, rfl⟩
          simp only [List.length_cons]
          omega
    · have hd : rt.drop cur = [] := List.drop_eq_nil_iff.mpr (by omega)
      refine ⟨best, ?_⟩
      rw [scanFuel_terminal rt lid (n + 1) ri cur 0 best f hc]
      simp [hd]

/-- Claim C6 (amended): for the current output link the scan skips any
leading result entries whose matched link differs, consumes through the
end of the first contiguous block of entries matching the link
identifier (collecting exactly that block's stop sequences and counting
exactly its length), and stops at the first differing entry after the
block; when no entry at or after the cursor matches, the cursor and the
found-set are left unchanged. -/
theorem scan_consumes_first_matching_block (rt : List PathEnd) (lid : ℤ) (r0 : ℕ)
    (f0 : List ℤ) :
    ∃ best',
      scanGo rt lid r0 f0
        = if (((rt.drop r0).drop
                ((rt.drop r0).takeWhile (fun e => !(linkMatch lid e))).length).takeWhile
              (linkMatch lid)) = [] then
            { resultIndex := r0, matchCtr := 0, best := none, found := f0 }
          else
            { resultIndex := r0
                + ((rt.drop r0).takeWhile (fun e => !(linkMatch lid e))).length
                + (((rt.drop r0).drop
                    ((rt.drop r0).takeWhile (fun e => !(linkMatch lid e))).length).takeWhile
                  (linkMatch lid)).length,
              matchCtr := (((rt.drop r0).drop
                  ((rt.drop r0).takeWhile (fun e => !(linkMatch lid e))).length).takeWhile
                (linkMatch lid)).length,
              best := best',
              found := (((rt.drop r0).drop
                  ((rt.drop r0).takeWhile (fun e => !(linkMatch lid e))).length).takeWhile
                (linkMatch lid)).foldl (fun s e => s.insert e.shapeEntry.shapeSeq) f0 } :=
  scanFuel_skip rt lid (rt.length + 1) r0 r0 none f0 (by omega)

/-- Counterexample to claim C6 as stated: with the cursor entry matched
to link 2 and the next entry matched to link 1, the scan for link 1 does
read past the differing cursor entry, counts one match, collects its
stop sequence, and advances the cursor to 2 — the claim predicts no
consumption and no advance. -/
theorem scan_reads_past_differing_entry :
    (scanGo [sampleEntry 2 0 1, sampleEntry 1 1 1] 1 0 []).matchCtr = 1 ∧
    (scanGo [sampleEntry 2 0 1, sampleEntry 1 1 1] 1 0 []).resultIndex = 2 ∧
    (scanGo [sampleEntry 2 0 1, sampleEntry 1 1 1] 1 0 []).found = [1] := by
  decide

/-- Claim C2 (code evaluation at the failing input): the result tree
holds the cursor entry matched to link 2 (stop seq 0, refDist 5) and two
candidates matched to link 1 (stop seq 1 refDist 7, stop seq 2
refDist 9).  Walking output link 1 emits the stop of the stale cursor
entry (stop 100, never matched to link 1) instead of the minimum-refDist
candidate (stop 101), logs the duplicate warning naming stop 100, and
assigns stop 100 to a point on link 2: source lines 346-347 read
`resultTree[resultIndex]` where the guard of line 344 tested
`resultTree[curResultIndex]`. -/
theorem walk_keeps_stale_cursor_entry :
    (walkLinks [sampleEntry 2 0 5, sampleEntry 1 1 7, sampleEntry 1 2 9]
        (buildStopsLookup [sampleStopTime 0 100, sampleStopTime 1 101, sampleStopTime 2 102])
        77 (initWalkState 0 []) [1]).rows
      = [{ tripID := 77, seq := 0, linkID := 1, stop := some 100, dwell := some 0 }] ∧
    (walkLinks [sampleEntry 2 0 5, sampleEntry 1 1 7, sampleEntry 1 2 9]
        (buildStopsLookup [sampleStopTime 0 100, sampleStopTime 1 101, sampleStopTime 2 102])
        77 (initWalkState 0 []) [1]).warns = [Warn.dup 2 77 1 100 0] ∧
    (walkLinks [sampleEntry 2 0 5, sampleEntry 1 1 7, sampleEntry 1 2 9]
        (buildStopsLookup [sampleStopTime 0 100, sampleStopTime 1 101, sampleStopTime 2 102])
        77 (initWalkState 0 []) [1]).ret = [(100, samplePOL 2 5)] := by
  decide

/-- A leftover step at a stop whose sequence is in the found-set does
nothing. -/
theorem leftoverStep_found_skip (pr : Bool) (tripID shapeID : ℤ) (found : List ℤ)
    (st : List Warn × List (ℤ × PathEnd)) (gst : StopTime) (hf : gst.stopSeq ∈ found) :
    leftoverStep pr tripID shapeID found st gst = st := by
  unfold leftoverStep
  rw [if_pos hf]

/-- A leftover step at an unmatched stop appends exactly one unmatched
warning. -/
theorem leftoverStep_unmatched_warns (pr : Bool) (tripID shapeID : ℤ) (found : List ℤ)
    (st : List Warn × List (ℤ × PathEnd)) (gst : StopTime) (hf : gst.stopSeq ∉ found) :
    ∃ rev', leftoverStep pr tripID shapeID found st gst
      = (st.1 ++ [Warn.unmatched tripID gst.stop.stopID gst.stopSeq], rev') := by
  unfold leftoverStep
  rw [if_neg hf]
  dsimp only
  split
  · split
    · exact ⟨_, rfl⟩
    · exact ⟨_, rfl⟩
  · exact ⟨_, rfl⟩

/-- The leftover loop appends exactly one unmatched warning per
unmatched scheduled stop, in schedule order. -/
theorem leftoverFold_warns (pr : Bool) (tripID shapeID : ℤ) (found : List ℤ) :
    ∀ (stopTimes : List StopTime) (st : List Warn × List (ℤ × PathEnd)),
      (stopTimes.foldl (leftoverStep pr tripID shapeID found) st).1
        = st.1 ++ (stopTimes.filter (fun g => !(decide (g.stopSeq ∈ found)))).map
            (fun g => Warn.unmatched tripID g.stop.stopID g.stopSeq) := by
  intro stopTimes
  induction stopTimes with
  | nil => intro st; simp
  | cons gst t ih =>
    intro st
    rw [List.foldl_cons]
    by_cases hf : gst.stopSeq ∈ found
    · rw [leftoverStep_found_skip pr tripID shapeID found st gst hf, ih]
      simp [List.filter_cons, hf]
    · obtain ⟨rev', hstep⟩ := leftoverStep_unmatched_warns pr tripID shapeID found st gst hf
      rw [hstep, ih]
      simp [List.filter_cons, hf]

/-- A leftover step never removes or replaces an existing diagnostics
record. -/
theorem leftoverStep_rev_stable (pr : Bool) (tripID shapeID : ℤ) (found : List ℤ)
    (st : List Warn × List (ℤ × PathEnd)) (gst : StopTime) (s : ℤ) (n : PathEnd)
    (h : alookup st.2 s = some n) :
    alookup (leftoverStep pr tripID shapeID found st gst).2 s = some n := by
  unfold leftoverStep
  split
  · exact h
  · dsimp only
    split
    · split
      · exact h
      · rename_i hnone
        by_cases hs : gst.stopSeq = s
        · subst hs
          exact absurd (by rw [h]; rfl) hnone
        · rw [alookup_aset_ne st.2 gst.stopSeq s _ (Ne.symm hs)]
          exact h
    · exact h

/-- The whole leftover loop never removes or replaces an existing
diagnostics record. -/
theorem leftoverFold_rev_stable (pr : Bool) (tripID shapeID : ℤ) (found : List ℤ) :
    ∀ (l : List StopTime) (st : List Warn × List (ℤ × PathEnd)) (s : ℤ) (n : PathEnd),
      alookup st.2 s = some n →
      alookup (l.foldl (leftoverStep pr tripID shapeID found) st).2 s = some n := by
  intro l
  induction l with
  | nil => exact fun st s n h => h
  | cons gst t ih =>
    intro st s n h
    rw [List.foldl_cons]
    exact ih _ s n (leftoverStep_rev_stable pr tripID shapeID found st gst s n h)

/-- When a leftover step binds a previously-unbound diagnostics key, the
new record is the synthetic placeholder for that step's stop, and that
stop's sequence is the key. -/
theorem leftoverStep_rev_new (pr : Bool) (tripID shapeID : ℤ) (found : List ℤ)
    (st : List Warn × List (ℤ × PathEnd)) (gst : StopTime) (s : ℤ)
    (hnone : alookup st.2 s = none)
    (hsome : ¬ alookup (leftoverStep pr tripID shapeID found st gst).2 s = none) :
    alookup (leftoverStep pr tripID shapeID found st gst).2 s
      = some (placeholderNode shapeID gst) ∧ gst.stopSeq = s := by
  unfold leftoverStep at hsome ⊢
  by_cases hf : gst.stopSeq ∈ found
  · rw [if_pos hf] at hsome ⊢
    exact absurd hnone hsome
  · rw [if_neg hf] at hsome ⊢
    by_cases hpr : pr = true
    · rw [if_pos hpr] at hsome ⊢
      by_cases hlk : (alookup st.2 gst.stopSeq).isSome = true
      · rw [if_pos hlk] at hsome ⊢
        exact absurd hnone hsome
      · rw [if_neg hlk] at hsome ⊢
        by_cases hs : gst.stopSeq = s
        · subst hs
          exact ⟨alookup_aset_self st.2 gst.stopSeq _, rfl⟩
        · rw [show ((st.1 ++ [Warn.unmatched tripID gst.stop.stopID gst.stopSeq],
              aset st.2 gst.stopSeq (placeholderNode shapeID gst)) :
              List Warn × List (ℤ × PathEnd)).2
            = aset st.2 gst.stopSeq (placeholderNode shapeID gst) from rfl] at hsome
          rw [alookup_aset_ne st.2 gst.stopSeq s _ (Ne.symm hs)] at hsome
          exact absurd hnone hsome
    · rw [if_neg hpr] at hsome ⊢
      exact absurd hnone hsome

/-- With diagnostics on, a leftover step at an unmatched stop whose key
is unbound inserts the restart-flagged placeholder under that key. -/
theorem leftoverStep_inserts (tripID shapeID : ℤ) (found : List ℤ)
    (st : List Warn × List (ℤ × PathEnd)) (gst : StopTime) (hf : gst.stopSeq ∉ found)
    (hnone : alookup st.2 gst.stopSeq = none) :
    alookup (leftoverStep true tripID shapeID found st gst).2 gst.stopSeq
      = some (placeholderNode shapeID gst) := by
  unfold leftoverStep
  rw [if_neg hf, if_pos rfl, if_neg (by rw [hnone]; simp)]
  exact alookup_aset_self st.2 gst.stopSeq _

/-- The leftover loop leaves a restart-flagged record for every
unmatched stop whose diagnostics key was unbound. -/
theorem leftoverFold_restart_placeholder (tripID shapeID : ℤ) (found : List ℤ) :
    ∀ (stopTimes : List StopTime) (st : List Warn × List (ℤ × PathEnd)) (gst : StopTime),
      gst ∈ stopTimes → gst.stopSeq ∉ found → alookup st.2 gst.stopSeq = none →
      ∃ n, alookup
          (stopTimes.foldl (leftoverStep true tripID shapeID found) st).2 gst.stopSeq
        = some n ∧ n.restart = true := by
  intro stopTimes
  induction stopTimes with
  | nil =>
    intro st gst hmem _hf _hnone
    exact absurd hmem (List.not_mem_nil gst)
  | cons h0 t ih =>
    intro st gst hmem hf hnone
    rw [List.foldl_cons]
    by_cases hkey : alookup (leftoverStep true tripID shapeID found st h0).2 gst.stopSeq = none
    · rcases List.mem_cons.mp hmem with heq | hmem'
      · subst heq
        rw [leftoverStep_inserts tripID shapeID found st gst hf hnone] at hkey
        exact absurd hkey (Option.some_ne_none _)
      · exact ih _ gst hmem' hf hkey
    · obtain ⟨heqv, _hseq⟩ :=
        leftoverStep_rev_new true tripID shapeID found st h0 gst.stopSeq hnone hkey
      exact ⟨placeholderNode shapeID h0,
        leftoverFold_rev_stable true tripID shapeID found t _ gst.stopSeq _ heqv, rfl⟩

/-- Claim C7: after a trip's walk, the leftover loop logs exactly one
unmatched-stop warning per scheduled stop whose sequence is absent from
the found-set (the warning list is exactly the filtered stop list, in
order), and with diagnostics enabled, a stop with no reconstructed
record under its sequence receives a synthetic placeholder flagged as a
restart. -/
theorem leftover_unmatched_warning_and_placeholder (pr : Bool) (tripID shapeID : ℤ)
    (found : List ℤ) (stopTimes : List StopTime) (rev : List (ℤ × PathEnd))
    (gst : StopTime) (hmem : gst ∈ stopTimes) (hf : gst.stopSeq ∉ found)
    (hnone : alookup rev gst.stopSeq = none) :
    (leftoverLoop pr tripID shapeID found stopTimes rev).1
      = (stopTimes.filter (fun g => !(decide (g.stopSeq ∈ found)))).map
          (fun g => Warn.unmatched tripID g.stop.stopID g.stopSeq)
    ∧ ∃ n, alookup (leftoverLoop true tripID shapeID found stopTimes rev).2 gst.stopSeq
        = some n ∧ n.restart = true := by
  constructor
  · have h := leftoverFold_warns pr tripID shapeID found stopTimes ([], rev)
    simpa [leftoverLoop] using h
  · exact leftoverFold_restart_placeholder tripID shapeID found stopTimes ([], rev) gst
      hmem hf hnone

/-- Witness for claim C7 on a concrete one-stop trip with nothing
found. -/
theorem leftover_unmatched_warning_and_placeholder_witness :
    (sampleStopTime 7 700 ∈ [sampleStopTime 7 700]) ∧
    ((sampleStopTime 7 700).stopSeq ∉ ([] : List ℤ)) ∧
    (alookup ([] : List (ℤ × PathEnd)) (sampleStopTime 7 700).stopSeq = none) ∧
    ((leftoverLoop true 3 4 [] [sampleStopTime 7 700] []).1
        = ([sampleStopTime 7 700].filter
            (fun g => !(decide (g.stopSeq ∈ ([] : List ℤ))))).map
            (fun g => Warn.unmatched 3 g.stop.stopID g.stopSeq)
      ∧ ∃ n, alookup (leftoverLoop true 3 4 [] [sampleStopTime 7 700] []).2
            (sampleStopTime 7 700).stopSeq = some n ∧ n.restart = true) :=
  ⟨by decide, by decide, rfl,
    leftover_unmatched_warning_and_placeholder true 3 4 [] [sampleStopTime 7 700] []
      (sampleStopTime 7 700) (by decide) (by decide) rfl⟩

/-- The boundary test as a proposition. -/
theorem isBdry_iff (t : List PathEnd) (i : ℕ) :
    isBdry t i = true ↔ (i = t.length ∨ i = 0 ∨ restartAt t i = true) := by
  simp [isBdry, or_assoc]

/-- The selection loop body changes the projection exactly at boundary
indices, by the projected step. -/
theorem selProj_selStep (t : List PathEnd) (s : SelState) (i : ℕ) :
    selProj (selStep t s i)
      = if isBdry t i then projStep t (selProj s) i else selProj s := by
  by_cases hb : i = t.length ∨ i = 0 ∨ restartAt t i = true
  · rw [if_pos ((isBdry_iff t i).mpr hb)]
    unfold selStep projStep
    rw [if_pos (by simpa using hb)]
    dsimp only [selProj]
    by_cases hw : (i : ℤ) > s.startIndex ∧ s.startIndex ≥ 0
    · rw [if_pos hw, if_pos hw]
      by_cases hd : dAt t (i - 1) - dAt t s.startIndex.toNat > s.longestDist
      · rw [if_pos hd, if_pos hd]
      · rw [if_neg hd, if_neg hd]
    · rw [if_neg hw, if_neg hw]
  · rw [if_neg (by simpa [isBdry_iff] using hb)]
    unfold selStep
    rw [if_neg (by simpa using hb)]
    rfl

/-- A fold's projection is the fold of the projected step over the
filtered index list. -/
theorem foldl_proj_filter {α β : Type} (proj : α → β) (f : α → ℕ → α) (g : β → ℕ → β)
    (p : ℕ → Bool) (hf : ∀ a i, proj (f a i) = if p i then g (proj a) i else proj a) :
    ∀ (l : List ℕ) (a : α), proj (l.foldl f a) = (l.filter p).foldl g (proj a) := by
  intro l
  induction l with
  | nil => intro a; rfl
  | cons i tl ih =>
    intro a
    rw [List.foldl_cons, ih (f a i), List.filter_cons, hf a i]
    by_cases hp : p i
    · rw [if_pos hp]
      simp [hp]
    · rw [if_neg hp]
      simp [hp]

/-- Folding the projected step along strictly increasing boundaries from
a committed start marker evaluates exactly the consecutive runs. -/
theorem projFold_runs (t : List PathEnd) :
    ∀ (bs : List ℕ) (b : ℕ) (sel : SelSel),
      List.Chain (· < ·) b bs →
      (bs.foldl (projStep t) ((b : ℤ), sel)).2
        = ((b :: bs).zip bs).foldl (runStep t) sel := by
  intro bs
  induction bs with
  | nil => intro b sel _; rfl
  | cons b1 bs' ih =>
    intro b sel hch
    rw [List.chain_cons] at hch
    have hstep : projStep t ((b : ℤ), sel) b1 = ((b1 : ℤ), runStep t sel (b, b1)) := by
      unfold projStep runStep
      rw [if_pos ⟨by show (b : ℤ) < (b1 : ℤ); exact_mod_cast hch.1, Int.natCast_nonneg b⟩]
      simp [spanOf]
    rw [List.foldl_cons, hstep, ih b1 (runStep t sel (b, b1)) hch.2,
      List.zip_cons_cons, List.foldl_cons]

/-- The boundary list starts at index zero. -/
theorem bdryList_eq_cons (t : List PathEnd) :
    bdryList t = 0 :: (List.range' 1 t.length).filter (isBdry t) := by
  unfold bdryList
  rw [List.range_eq_range', List.range'_succ, List.filter_cons]
  simp [isBdry]

/-- The boundary indices strictly increase from zero. -/
theorem bdryList_chain (t : List PathEnd) :
    List.Chain (· < ·) 0 ((List.range' 1 t.length).filter (isBdry t)) := by
  have h1 : (List.range (t.length + 1)).Pairwise (· < ·) := List.pairwise_lt_range _
  have h2 : (bdryList t).Pairwise (· < ·) := h1.filter _
  rw [bdryList_eq_cons] at h2
  exact List.chain'_iff_pairwise.mpr h2

/-- Key equation: the selection retained by the scan is the spec-side
fold of the run step over the consecutive boundary runs, starting from
the sentinel state. -/
theorem selectLoop_eq_runFold (t : List PathEnd) :
    (selProj (selectLoop t)).2
      = (runsOf t).foldl (runStep t)
          { longestStart := -1, longestEnd := t.length, longestDist := minFloat } := by
  unfold selectLoop
  rw [foldl_proj_filter selProj (selStep t) (projStep t) (isBdry t) (selProj_selStep t)]
  have hb : (List.range (t.length + 1)).filter (isBdry t)
      = 0 :: (List.range' 1 t.length).filter (isBdry t) := bdryList_eq_cons t
  rw [hb, List.foldl_cons]
  have hstep0 : projStep t (selProj (selInit t)) 0
      = (((0 : ℕ) : ℤ),
         { longestStart := -1, longestEnd := t.length, longestDist := minFloat }) := by
    unfold projStep selProj selInit
    rw [if_neg (by norm_num)]
  rw [hstep0, projFold_runs t _ 0 _ (bdryList_chain t)]
  unfold runsOf
  rw [bdryList_eq_cons t]
  rfl

/-- Structure of the spec-side fold: either no run beats the incumbent
distance and the start state survives, or the result is the first run
attaining the strict maximum span. -/
theorem runFold_cases (t : List PathEnd) :
    ∀ (rs : List (ℕ × ℕ)) (sel : SelSel),
      (rs.foldl (runStep t) sel = sel ∧ ∀ r ∈ rs, spanOf t r ≤ sel.longestDist) ∨
      (∃ pre r post, rs = pre ++ r :: post ∧
        rs.foldl (runStep t) sel
          = { longestStart := (r.1 : ℤ), longestEnd := r.2, longestDist := spanOf t r } ∧
        sel.longestDist < spanOf t r ∧
        (∀ q ∈ pre, spanOf t q < spanOf t r) ∧
        (∀ q ∈ post, spanOf t q ≤ spanOf t r)) := by
  intro rs
  induction rs with
  | nil => intro sel; left; exact ⟨rfl, by simp⟩
  | cons r0 rs' ih =>
    intro sel
    rw [List.foldl_cons]
    by_cases h0 : spanOf t r0 > sel.longestDist
    · have hstep : runStep t sel r0
          = { longestStart := (r0.1 : ℤ), longestEnd := r0.2, longestDist := spanOf t r0 } := by
        unfold runStep
        rw [if_pos h0]
      rw [hstep]
      rcases ih { longestStart := (r0.1 : ℤ), longestEnd := r0.2, longestDist := spanOf t r0 }
        with ⟨heq, hall⟩ | ⟨pre, r, post, hsplit, heq, hlt, hpre, hpost⟩
      · right
        exact ⟨[], r0, rs', rfl, heq, h0, by simp, by simpa using hall⟩
      · right
        refine ⟨r0 :: pre, r, post, by rw [hsplit, List.cons_append], heq, lt_trans h0 hlt, ?_,
          hpost⟩
        intro q hq
        rcases List.mem_cons.mp hq with hq0 | hq'
        · rw [hq0]; exact hlt
        · exact hpre q hq'
    · have hstep : runStep t sel r0 = sel := by
        unfold runStep
        rw [if_neg h0]
      rw [hstep]
      rcases ih sel with ⟨heq, hall⟩ | ⟨pre, r, post, hsplit, heq, hlt, hpre, hpost⟩
      · left
        refine ⟨heq, ?_⟩
        intro q hq
        rcases List.mem_cons.mp hq with hq0 | hq'
        · rw [hq0]; exact not_lt.mp h0
        · exact hall q hq'
      · right
        refine ⟨r0 :: pre, r, post, by rw [hsplit, List.cons_append], heq, hlt, ?_, hpost⟩
        intro q hq
        rcases List.mem_cons.mp hq with hq0 | hq'
        · rw [hq0]; exact lt_of_le_of_lt (not_lt.mp h0) hlt
        · exact hpre q hq'

/-- Whenever some run's span beats the sentinel, the scan's retained
interval is the earliest run of strictly greatest span. -/
theorem selectLoop_max_aux (t : List PathEnd) (r : ℕ × ℕ) (hr : r ∈ runsOf t)
    (hspan : minFloat < spanOf t r) :
    ∃ pre rr post, runsOf t = pre ++ rr :: post ∧
      (selectLoop t).longestStart = (rr.1 : ℤ) ∧
      (selectLoop t).longestEnd = rr.2 ∧
      minFloat < spanOf t rr ∧
      (∀ q ∈ pre, spanOf t q < spanOf t rr) ∧
      (∀ q ∈ post, spanOf t q ≤ spanOf t rr) ∧
      (∀ q ∈ runsOf t, spanOf t q ≤ spanOf t rr) := by
  have hkey := selectLoop_eq_runFold t
  rcases runFold_cases t (runsOf t)
      { longestStart := -1, longestEnd := t.length, longestDist := minFloat }
    with ⟨_heq, hall⟩ | ⟨pre, rr, post, hsplit, heq, hlt, hpre, hpost⟩
  · exact absurd (hall r hr) (not_le.mpr hspan)
  · have hsel : (selProj (selectLoop t)).2
        = { longestStart := (rr.1 : ℤ), longestEnd := rr.2, longestDist := spanOf t rr } :=
      hkey.trans heq
    refine ⟨pre, rr, post, hsplit, congrArg SelSel.longestStart hsel,
      congrArg SelSel.longestEnd hsel, hlt, hpre, hpost, ?_⟩
    intro q hq
    rw [hsplit] at hq
    rcases List.mem_append.mp hq with hq1 | hq2
    · exact le_of_lt (hpre q hq1)
    · rcases List.mem_cons.mp hq2 with hq0 | hq3
      · rw [hq0]
      · exact hpost q hq3

/-- With no interior restart flag the scan sees a single run covering
the whole sequence. -/
theorem runsOf_no_interior (t : List PathEnd) (ht : t ≠ [])
    (hni : ∀ i, 0 < i → i < t.length → restartAt t i = false) :
    runsOf t = [(0, t.length)] := by
  have hlen : t.length ≠ 0 := fun h => ht (List.length_eq_zero.mp h)
  obtain ⟨n, hn⟩ : ∃ n, t.length = n + 1 := ⟨t.length - 1, by omega⟩
  have hfilter : (List.range' 1 t.length).filter (isBdry t) = [t.length] := by
    rw [hn, show List.range' 1 (n + 1) = List.range' 1 n ++ [1 + n] from by
      simpa using @List.range'_concat 1 1 n]
    rw [List.filter_append]
    have h1 : (List.range' 1 n).filter (isBdry t) = [] := by
      rw [List.filter_eq_nil_iff]
      intro a ha
      obtain ⟨h1a, h2a⟩ := List.mem_range'_1.mp ha
      have hna : restartAt t a = false := hni a (by omega) (by omega)
      simp only [isBdry, hna, Bool.or_false, Bool.or_eq_true, decide_eq_true_eq, hn]
      rintro (hha | hha) <;> omega
    have h2 : isBdry t (n + 1) = true := by
      simp [isBdry, hn]
    rw [h1]
    simp [List.filter_cons, hn, Nat.add_comm, h2]
  unfold runsOf
  rw [bdryList_eq_cons t, hfilter]
  rfl

/-- Claim C3 (amended): for a nonempty matched-position sequence the
selection scan returns the contiguous run of strictly greatest
cumulative-distance span, keeping the earliest-found run on ties,
provided that greatest span exceeds the sentinel `minFloat`
(`sys.float_info.min`) the best distance is initialized to; when every
run's span is at most the sentinel — for example a single-element
sequence, whose only run has span zero — the scan reports no usable
interval (`longestStart = -1`); and a sequence with no interior restart
boundary whose whole span exceeds the sentinel is selected whole. -/
theorem selector_selects_max_span_run (t : List PathEnd) (ht : t ≠ []) :
    ((∃ r ∈ runsOf t, minFloat < spanOf t r) →
      ∃ pre rr post, runsOf t = pre ++ rr :: post ∧
        (selectLoop t).longestStart = (rr.1 : ℤ) ∧
        (selectLoop t).longestEnd = rr.2 ∧
        minFloat < spanOf t rr ∧
        (∀ q ∈ pre, spanOf t q < spanOf t rr) ∧
        (∀ q ∈ runsOf t, spanOf t q ≤ spanOf t rr))
    ∧ ((∀ r ∈ runsOf t, spanOf t r ≤ minFloat) → (selectLoop t).longestStart = -1)
    ∧ ((∀ i, 0 < i → i < t.length → restartAt t i = false) →
        minFloat < spanOf t (0, t.length) →
        (selectLoop t).longestStart = 0 ∧ (selectLoop t).longestEnd = t.length) := by
  refine ⟨?_, ?_, ?_⟩
  · rintro ⟨r, hr, hspan⟩
    obtain ⟨pre, rr, post, hsplit, h1, h2, h3, h4, _h5, h6⟩ :=
      selectLoop_max_aux t r hr hspan
    exact ⟨pre, rr, post, hsplit, h1, h2, h3, h4, h6⟩
  · intro hall
    have hkey := selectLoop_eq_runFold t
    rcases runFold_cases t (runsOf t)
        { longestStart := -1, longestEnd := t.length, longestDist := minFloat }
      with ⟨heq, _⟩ | ⟨pre, rr, post, hsplit, _heq, hlt, _, _⟩
    · exact congrArg SelSel.longestStart (hkey.trans heq)
    · have hrr : rr ∈ runsOf t := by
        rw [hsplit]
        exact List.mem_append_right _ (List.mem_cons_self _ _)
      exact absurd hlt (not_lt.mpr (hall rr hrr))
  · intro hni hsp
    have hruns := runsOf_no_interior t ht hni
    have hr : (0, t.length) ∈ runsOf t := by
      rw [hruns]
      exact List.mem_cons_self _ _
    obtain ⟨pre, rr, post, hsplit, h1, h2, _, _, _, _⟩ := selectLoop_max_aux t _ hr hsp
    rw [hruns] at hsplit
    cases pre with
    | nil =>
      rw [List.nil_append] at hsplit
      injection hsplit with ha _hb
      rw [← ha] at h1 h2
      exact ⟨by simpa using h1, h2⟩
    | cons p ps =>
      have hlen2 := congrArg List.length hsplit
      rw [List.length_append] at hlen2
      simp at hlen2
      omega

/-- Counterexample to claim C3 as stated: a single-position sequence has
no interior restart boundary, yet the scan does not return the whole
sequence as the selected interval — the only run's span is zero, which
never exceeds the positive sentinel the best distance starts at, so the
scan reports no usable interval. -/
theorem selector_rejects_zero_span_run :
    (selectLoop [selEntry true 0]).longestStart = -1 := by
  rw [selectLoop, show List.range ([selEntry true 0].length + 1) = [0, 1] from rfl]
  simp only [List.foldl_cons, List.foldl_nil]
  norm_num [selStep, selInit, restartAt, dAt, routeLenAt, selEntry, samplePOL, sampleLink,
    sampleNode, Rat.mkRat_eq_div, minFloat]

/-- Witness for amended claim C3 on a concrete two-position run of
span one. -/
theorem selector_selects_max_span_run_witness :
    ([selEntry true 0, selEntry false 1] ≠ ([] : List PathEnd)) ∧
    (((∃ r ∈ runsOf [selEntry true 0, selEntry false 1],
          minFloat < spanOf [selEntry true 0, selEntry false 1] r) →
      ∃ pre rr post, runsOf [selEntry true 0, selEntry false 1] = pre ++ rr :: post ∧
        (selectLoop [selEntry true 0, selEntry false 1]).longestStart = (rr.1 : ℤ) ∧
        (selectLoop [selEntry true 0, selEntry false 1]).longestEnd = rr.2 ∧
        minFloat < spanOf [selEntry true 0, selEntry false 1] rr ∧
        (∀ q ∈ pre, spanOf [selEntry true 0, selEntry false 1] q
          < spanOf [selEntry true 0, selEntry false 1] rr) ∧
        (∀ q ∈ runsOf [selEntry true 0, selEntry false 1],
          spanOf [selEntry true 0, selEntry false 1] q
            ≤ spanOf [selEntry true 0, selEntry false 1] rr))
    ∧ ((∀ r ∈ runsOf [selEntry true 0, selEntry false 1],
          spanOf [selEntry true 0, selEntry false 1] r ≤ minFloat) →
        (selectLoop [selEntry true 0, selEntry false 1]).longestStart = -1)
    ∧ ((∀ i, 0 < i → i < ([selEntry true 0, selEntry false 1] : List PathEnd).length →
          restartAt [selEntry true 0, selEntry false 1] i = false) →
        minFloat < spanOf [selEntry true 0, selEntry false 1]
          (0, ([selEntry true 0, selEntry false 1] : List PathEnd).length) →
        (selectLoop [selEntry true 0, selEntry false 1]).longestStart = 0 ∧
        (selectLoop [selEntry true 0, selEntry false 1]).longestEnd
          = ([selEntry true 0, selEntry false 1] : List PathEnd).length)) :=
  ⟨by decide, selector_selects_max_span_run [selEntry true 0, selEntry false 1] (by decide)⟩
